import Mathlib

/-!
Verification of the rltrace session-tracing library (parrisma/trace).

This file gives a shallow embedding, in Lean 4, of the parts of the Python
source that the specification claims talk about:

* `src/rltrace/LogLevel.py`  — the `LogLevel` enumeration and its parser;
* `src/rltrace/Trace.py`     — the `Trace` class: construction/bootstrap,
  console/file handler attachment, generic `enable_handler`,
  `contains_handler`, `get_handler_by_name`, and `log`;
* `src/elastic/ElasticFormatter.py` (identical to
  `src/rltrace/elastic/ElasticFormatter.py`) — the JSON record formatter;
* `src/elastic/ESUtil.py`    — `DefaultElasticDateFormatter`, the
  connection cache `get_connection`, and `write_doc_to_index`;
* `src/rltrace/elastic/ElasticHandler.py` and
  `src/rltrace/elastic/TraceElasticConnectionFactory.py` — the
  document-store sink, its `emit` and `reset_for_new_process`.

Python objects are modelled as Lean structures; object identity is modelled
with explicit numeric ids where a claim depends on it; the mutable
process-wide logging state is threaded explicitly; exceptions are modelled
with `Except`.  External collaborators (the filesystem, the document store,
the host timezone) are passed in as explicit parameters.
-/

/-! ## LogLevel (src/rltrace/LogLevel.py) -/

/-- The `LogLevel` IntEnum: debug=0, info=1, warn=2, error=3, critical=4. -/
inductive LogLevel where
  | debug
  | info
  | warn
  | error
  | critical
  deriving Repr, DecidableEq

/-- The integer value of the enum member (`IntEnum` values in LogLevel.py). -/
def LogLevel.value : LogLevel → Nat
  | .debug => 0
  | .info => 1
  | .warn => 2
  | .error => 3
  | .critical => 4

/-- The native logging level that `LogLevel.set` installs on the logger
(logging.DEBUG=10, INFO=20, WARN=30, ERROR=40, CRITICAL=50). -/
def LogLevel.nativeLevel : LogLevel → Int
  | .debug => 10
  | .info => 20
  | .warn => 30
  | .error => 40
  | .critical => 50

/-- `LogLevel.new(level)` from src/rltrace/LogLevel.py: `LogLevel[level]`
looks the name up in the enumeration (exact, case-sensitive member name);
any exception (a `None` argument, an empty string, an unknown name) is
caught and `LogLevel[ 'info' ]` is returned instead.  The Python `None`
argument is modelled as `Option.none`. -/
def LogLevel.new (level : Option String) : LogLevel :=
  match level with
  | none => .info
  | some s =>
    if s = "debug" then .debug
    else if s = "info" then .info
    else if s = "warn" then .warn
    else if s = "error" then .error
    else if s = "critical" then .critical
    else .info

/-! ## Handlers and the process-wide logger (src/rltrace/Trace.py) -/

/-- A logging handler as far as the claims are concerned: its `name`
attribute (a Python string or `None`), its severity threshold, and a
numeric `objId` standing in for Python object identity (two handler
objects with different `objId` are distinct objects even if every other
field agrees). -/
structure PyHandler where
  objId : Nat
  name : Option String
  level : Int
  deriving Repr, DecidableEq

/-- The single process-wide logger returned by
`logging.getLogger(Trace.trace_unique_name())`: its level, propagate flag
and ordered handler list. -/
structure PyLogger where
  level : Int
  propagate : Bool
  handlers : List PyHandler
  deriving Repr, DecidableEq

/-- The mutable process state touched by `Trace.__init__`: the shared
logger registered under the fixed name, whether sys.stdout / sys.stderr
have already been replaced by `StreamToLogger`, and a counter supplying
fresh object ids for newly created handler objects. -/
structure SysState where
  logger : PyLogger
  stdoutRedirected : Bool
  stderrRedirected : Bool
  nextId : Nat
  deriving Repr, DecidableEq

/-- The process state before any `Trace` has been constructed: a fresh
logger with no handlers (`logging.getLogger` on a new name). -/
def initSysState : SysState :=
  { logger := { level := 0, propagate := true, handlers := [] }
    stdoutRedirected := false
    stderrRedirected := false
    nextId := 0 }

/-- `Trace._TRACE_UNIQUE_NAME` from src/rltrace/Trace.py line 34. -/
def trace_unique_name : String := "Trace-73702c6afbb74892a5393278bd088bb4"

/-- `trace_console_handler_unique_name` (Trace.py line 95). -/
def trace_console_handler_unique_name : String :=
  trace_unique_name ++ "-ConsoleHandler"

/-- `trace_file_handler_unique_name` (Trace.py line 99). -/
def trace_file_handler_unique_name : String :=
  trace_unique_name ++ "-FileHandler"

/-- The first handler in `handlers` whose `name` equals `nm`, if any —
the search loop shared by `enable_console_handler`,
`enable_file_handler` and `contains_handler`. -/
def findHandlerByName (handlers : List PyHandler) (nm : Option String) :
    Option PyHandler :=
  match handlers with
  | [] => none
  | h :: rest =>
    if h.name = nm then some h else findHandlerByName rest nm

/-- `Trace.enable_console_handler` (Trace.py lines 171-187): scan the
logger for a handler already named with the console name; if none is
found, create a fresh `StreamHandler`, name it, set its level to the
logger level, and append it. -/
def enable_console_handler (s : SysState) : SysState :=
  match findHandlerByName s.logger.handlers (some trace_console_handler_unique_name) with
  | some _ => s
  | none =>
    let h : PyHandler :=
      { objId := s.nextId
        name := some trace_console_handler_unique_name
        level := s.logger.level }
    { s with
      nextId := s.nextId + 1
      logger := { s.logger with handlers := s.logger.handlers ++ [h] } }

/-- `Trace.enable_file_handler` (Trace.py lines 189-206): scan for a
handler named with the file name; if the trace object was given a log
directory and no such handler exists, create a `FileHandler`, name it,
set its level and append it.  With no log directory nothing is added. -/
def enable_file_handler (logDirGiven : Bool) (s : SysState) : SysState :=
  match findHandlerByName s.logger.handlers (some trace_file_handler_unique_name) with
  | some _ => s
  | none =>
    if logDirGiven then
      let h : PyHandler :=
        { objId := s.nextId
          name := some trace_file_handler_unique_name
          level := s.logger.level }
      { s with
        nextId := s.nextId + 1
        logger := { s.logger with handlers := s.logger.handlers ++ [h] } }
    else s

/-- The fields of a `Trace` object relevant to the claims. -/
structure TraceObj where
  session_uuid : String
  log_dir_name : Option String
  log_level : LogLevel
  deriving Repr, DecidableEq

/-- `Trace.__init__` together with `Trace._bootstrap`
(Trace.py lines 60-87 and 131-147).  `isDir` models `os.path.isdir`;
`freshUuid` models the `UniqueRef().ref` generated when no session uuid
is passed.  A `log_dir_name` that is not an existing directory raises
`ValueError` before the logger is touched; otherwise the shared logger
is fetched, its level set, propagation disabled, the console handler and
(conditionally) the file handler attached, and the stream redirection
installed if not already in place. -/
def setLevelNoPropagate (log_level : LogLevel) (s : SysState) : SysState :=
  { s with logger := { s.logger with level := log_level.nativeLevel, propagate := false } }

/-- The stdout/stderr redirection installed at the end of `_bootstrap`
(guarded in the source by an isinstance check, so installing twice is
the same as installing once). -/
def redirectStreams (s : SysState) : SysState :=
  { s with stdoutRedirected := true, stderrRedirected := true }

/-- `Trace._bootstrap` (Trace.py lines 131-147): fetch the shared logger,
set its level, disable propagation, attach the console handler, attach
the file handler (a no-op without a log directory), redirect streams. -/
def bootstrap (log_level : LogLevel) (logDirGiven : Bool) (s : SysState) : SysState :=
  redirectStreams
    (enable_file_handler logDirGiven
      (enable_console_handler (setLevelNoPropagate log_level s)))

def traceInit (isDir : String → Bool) (freshUuid : String)
    (log_level : LogLevel) (log_dir_name : Option String)
    (session_uuid : Option String) (s : SysState) :
    Except String (TraceObj × SysState) :=
  let uuid := match session_uuid with
    | none => freshUuid
    | some u => u
  match log_dir_name with
  | some d =>
    if ¬ isDir d then
      Except.error ("Invalid directory name given for log file " ++ d)
    else
      Except.ok (⟨uuid, some d, log_level⟩, bootstrap log_level true s)
  | none =>
    Except.ok (⟨uuid, none, log_level⟩, bootstrap log_level false s)

/-- `Trace.contains_handler` (Trace.py lines 226-233). -/
def contains_handler (s : SysState) (handler_name : Option String) : Bool :=
  s.logger.handlers.any (fun h => handler_name = h.name)

/-- The argument passed to `Trace.enable_handler`: Python `None`, a
`logging.Handler` instance, or some other object. -/
inductive EnableArg where
  | noneArg
  | handler (h : PyHandler)
  | notAHandler
  deriving Repr, DecidableEq

/-- `Trace.enable_handler` (Trace.py lines 208-224): raise `ValueError`
on `None` or a non-handler argument; otherwise, if no handler of the same
name is attached, set the handler level to the logger level and append
it; if a handler of the same name is already attached, do nothing. -/
def enable_handler (arg : EnableArg) (s : SysState) : Except String SysState :=
  match arg with
  | .noneArg => Except.error "Given handler to enable is None"
  | .notAHandler => Except.error "Expected handler but given other class"
  | .handler h =>
    if contains_handler s h.name then
      Except.ok s
    else
      Except.ok
        { s with
          logger :=
            { s.logger with
              handlers := s.logger.handlers ++ [{ h with level := s.logger.level }] } }

/-- `Trace.get_handler_by_name` (Trace.py lines 118-129): the Python loop
variable `required_handler` starts as `None`, is reassigned to each
handler in turn, and the loop breaks on the first name match; the
variable (not necessarily a match) is returned. -/
def get_handler_by_name_loop (handlers : List PyHandler)
    (acc : Option PyHandler) (handler_name : Option String) : Option PyHandler :=
  match handlers with
  | [] => acc
  | h :: rest =>
    if h.name = handler_name then some h
    else get_handler_by_name_loop rest (some h) handler_name

/-- `Trace.get_handler_by_name` applied to the logger of the trace. -/
def get_handler_by_name (s : SysState) (handler_name : Option String) :
    Option PyHandler :=
  get_handler_by_name_loop s.logger.handlers none handler_name

/-- Names of the handlers attached to the logger. -/
def handlerNames (s : SysState) : List (Option String) :=
  s.logger.handlers.map (fun h => h.name)

/-- One construction request in a sequence of `Trace` constructions:
its log level and its (optional) log directory argument. -/
structure ConstructArgs where
  level : LogLevel
  dir : Option String
  deriving Repr, DecidableEq

/-- Run a sequence of `Trace` constructions against the same process
state (same underlying logger name), ignoring construction failures is
not needed: the theorems only consider valid directories, under which
every construction succeeds.  `traceInitState` projects the state. -/
def traceInitState (isDir : String → Bool) (c : ConstructArgs) (s : SysState) : SysState :=
  match traceInit isDir "uuid" c.level c.dir none s with
  | Except.ok (_, s2) => s2
  | Except.error _ => s

/-- State after a whole list of constructions, first element first. -/
def constructAll (isDir : String → Bool) (cs : List ConstructArgs) (s : SysState) : SysState :=
  match cs with
  | [] => s
  | c :: rest => constructAll isDir rest (traceInitState isDir c s)

/-! ## Helper lemmas about handler search and attachment -/

theorem findHandlerByName_eq_none_iff (hs : List PyHandler) (nm : Option String) :
    findHandlerByName hs nm = none ↔ ∀ h ∈ hs, h.name ≠ nm := by
  induction hs with
  | nil => simp [findHandlerByName]
  | cons h rest ih =>
    by_cases hn : h.name = nm
    · simp [findHandlerByName, hn]
    · simp [findHandlerByName, hn, ih]

theorem findHandlerByName_some_name (hs : List PyHandler) (nm : Option String)
    (h : PyHandler) (hf : findHandlerByName hs nm = some h) : h.name = nm := by
  induction hs with
  | nil => simp [findHandlerByName] at hf
  | cons h0 rest ih =>
    by_cases hn : h0.name = nm
    · simp [findHandlerByName, hn] at hf
      rw [← hf]; exact hn
    · simp [findHandlerByName, hn] at hf
      exact ih hf

theorem findHandlerByName_some_mem (hs : List PyHandler) (nm : Option String)
    (h : PyHandler) (hf : findHandlerByName hs nm = some h) : h ∈ hs := by
  induction hs with
  | nil => simp [findHandlerByName] at hf
  | cons h0 rest ih =>
    by_cases hn : h0.name = nm
    · simp [findHandlerByName, hn] at hf
      simp [← hf]
    · simp [findHandlerByName, hn] at hf
      exact List.mem_cons_of_mem _ (ih hf)

theorem contains_handler_iff (s : SysState) (nm : Option String) :
    contains_handler s nm = true ↔ ∃ h ∈ s.logger.handlers, nm = h.name := by
  simp [contains_handler, List.any_eq_true]

/-- Names after `enable_console_handler` when the console name is present. -/
theorem enable_console_handler_present (s : SysState)
    (h : some trace_console_handler_unique_name ∈ handlerNames s) :
    enable_console_handler s = s := by
  unfold enable_console_handler
  cases hf : findHandlerByName s.logger.handlers (some trace_console_handler_unique_name) with
  | some _ => rfl
  | none =>
    exfalso
    rw [findHandlerByName_eq_none_iff] at hf
    simp [handlerNames, List.mem_map] at h
    obtain ⟨h0, hmem, hname⟩ := h
    exact hf h0 hmem hname

/-- Names after `enable_console_handler` when the console name is absent. -/
theorem enable_console_handler_absent (s : SysState)
    (h : some trace_console_handler_unique_name ∉ handlerNames s) :
    handlerNames (enable_console_handler s) =
      handlerNames s ++ [some trace_console_handler_unique_name] := by
  unfold enable_console_handler
  cases hf : findHandlerByName s.logger.handlers (some trace_console_handler_unique_name) with
  | some h0 =>
    exfalso
    apply h
    have hname := findHandlerByName_some_name _ _ _ hf
    have hmem := findHandlerByName_some_mem _ _ _ hf
    rw [← hname]
    exact List.mem_map_of_mem (fun h => h.name) hmem
  | none => simp [handlerNames]


/-- Names after `enable_file_handler` when the file name is present. -/
theorem enable_file_handler_present (b : Bool) (s : SysState)
    (h : some trace_file_handler_unique_name ∈ handlerNames s) :
    enable_file_handler b s = s := by
  unfold enable_file_handler
  cases hf : findHandlerByName s.logger.handlers (some trace_file_handler_unique_name) with
  | some _ => rfl
  | none =>
    exfalso
    rw [findHandlerByName_eq_none_iff] at hf
    simp [handlerNames, List.mem_map] at h
    obtain ⟨h0, hmem, hname⟩ := h
    exact hf h0 hmem hname

/-- `enable_file_handler` does nothing when no log directory was given. -/
theorem enable_file_handler_no_dir (s : SysState) :
    enable_file_handler false s = s := by
  unfold enable_file_handler
  cases findHandlerByName s.logger.handlers (some trace_file_handler_unique_name) with
  | some _ => rfl
  | none => rfl

/-- Names after `enable_file_handler` with a directory, name absent. -/
theorem enable_file_handler_absent (s : SysState)
    (h : some trace_file_handler_unique_name ∉ handlerNames s) :
    handlerNames (enable_file_handler true s) =
      handlerNames s ++ [some trace_file_handler_unique_name] := by
  unfold enable_file_handler
  cases hf : findHandlerByName s.logger.handlers (some trace_file_handler_unique_name) with
  | some h0 =>
    exfalso
    apply h
    have hname := findHandlerByName_some_name _ _ _ hf
    have hmem := findHandlerByName_some_mem _ _ _ hf
    rw [← hname]
    exact List.mem_map_of_mem (fun h => h.name) hmem
  | none => simp [handlerNames]

/-- Setting level and propagation leaves the handler list alone. -/
theorem handlerNames_setLevelNoPropagate (lvl : LogLevel) (s : SysState) :
    handlerNames (setLevelNoPropagate lvl s) = handlerNames s := rfl

/-- Redirecting the streams leaves the handler list alone. -/
theorem handlerNames_redirectStreams (s : SysState) :
    handlerNames (redirectStreams s) = handlerNames s := rfl

/-- The console and file handler names are different strings. -/
theorem console_name_ne_file_name :
    trace_console_handler_unique_name ≠ trace_file_handler_unique_name := by
  decide

/-- Handler names produced by `_bootstrap` on a state already carrying
the console sink and possibly the file sink. -/
theorem bootstrap_names_inv (lvl : LogLevel) (b : Bool) (s : SysState)
    (hs : handlerNames s = [some trace_console_handler_unique_name] ∨
          handlerNames s = [some trace_console_handler_unique_name,
                            some trace_file_handler_unique_name]) :
    handlerNames (bootstrap lvl b s) =
      if some trace_file_handler_unique_name ∈ handlerNames s ∨ b = true then
        [some trace_console_handler_unique_name, some trace_file_handler_unique_name]
      else [some trace_console_handler_unique_name] := by
  have hcon : some trace_console_handler_unique_name ∈ handlerNames s := by
    rcases hs with h | h <;> simp [h]
  unfold bootstrap
  rw [handlerNames_redirectStreams]
  have h1 : enable_console_handler (setLevelNoPropagate lvl s) = setLevelNoPropagate lvl s :=
    enable_console_handler_present _
      (by rw [handlerNames_setLevelNoPropagate]; exact hcon)
  rw [h1]
  have hne : trace_file_handler_unique_name ≠ trace_console_handler_unique_name :=
    Ne.symm console_name_ne_file_name
  rcases hs with hnames | hnames
  · have hfn : some trace_file_handler_unique_name ∉ handlerNames (setLevelNoPropagate lvl s) := by
      rw [handlerNames_setLevelNoPropagate, hnames]
      simp [hne]
    cases b with
    | false =>
      rw [enable_file_handler_no_dir, handlerNames_setLevelNoPropagate, hnames]
      simp [hnames, hne]
    | true =>
      rw [enable_file_handler_absent _ hfn, handlerNames_setLevelNoPropagate, hnames]
      simp
  · have hfn : some trace_file_handler_unique_name ∈ handlerNames (setLevelNoPropagate lvl s) := by
      rw [handlerNames_setLevelNoPropagate, hnames]; simp
    rw [enable_file_handler_present _ _ hfn, handlerNames_setLevelNoPropagate, hnames]
    simp [hnames]

/-- Handler names produced by one valid `Trace` construction on such a
state. -/
theorem traceInitState_names_inv (isDir : String → Bool) (c : ConstructArgs)
    (s : SysState) (hvalid : ∀ d, c.dir = some d → isDir d = true)
    (hs : handlerNames s = [some trace_console_handler_unique_name] ∨
          handlerNames s = [some trace_console_handler_unique_name,
                            some trace_file_handler_unique_name]) :
    handlerNames (traceInitState isDir c s) =
      if some trace_file_handler_unique_name ∈ handlerNames s ∨ c.dir.isSome = true then
        [some trace_console_handler_unique_name, some trace_file_handler_unique_name]
      else [some trace_console_handler_unique_name] := by
  cases hdir : c.dir with
  | some d =>
    have hd : isDir d = true := hvalid d hdir
    have hstep : traceInitState isDir c s = bootstrap c.level true s := by
      unfold traceInitState traceInit
      rw [hdir]
      simp [hd]
    rw [hstep, bootstrap_names_inv c.level true s hs]
    simp [hdir]
  | none =>
    have hstep : traceInitState isDir c s = bootstrap c.level false s := by
      unfold traceInitState traceInit
      rw [hdir]
    rw [hstep, bootstrap_names_inv c.level false s hs]
    simp [hdir]

/-- Handler names after a whole sequence of valid constructions on a
state already carrying the console sink (and possibly the file sink). -/
theorem constructAll_names_inv (isDir : String → Bool) (cs : List ConstructArgs) :
    ∀ s : SysState, (∀ c ∈ cs, ∀ d, c.dir = some d → isDir d = true) →
    (handlerNames s = [some trace_console_handler_unique_name] ∨
     handlerNames s = [some trace_console_handler_unique_name,
                       some trace_file_handler_unique_name]) →
    handlerNames (constructAll isDir cs s) =
      if some trace_file_handler_unique_name ∈ handlerNames s ∨
         cs.any (fun c => c.dir.isSome) = true then
        [some trace_console_handler_unique_name, some trace_file_handler_unique_name]
      else [some trace_console_handler_unique_name] := by
  induction cs with
  | nil =>
    intro s _ hs
    rcases hs with hnames | hnames <;>
      simp [constructAll, hnames, Ne.symm console_name_ne_file_name]
  | cons c rest ih =>
    intro s hvalid hs
    have hstep := traceInitState_names_inv isDir c s
      (fun d hd => hvalid c (List.mem_cons_self c rest) d hd) hs
    have hinv : handlerNames (traceInitState isDir c s) =
        [some trace_console_handler_unique_name] ∨
        handlerNames (traceInitState isDir c s) =
        [some trace_console_handler_unique_name, some trace_file_handler_unique_name] := by
      rw [hstep]
      by_cases hc : some trace_file_handler_unique_name ∈ handlerNames s ∨
          c.dir.isSome = true
      · right; simp [hc]
      · left; simp [hc]
    have hrest := ih (traceInitState isDir c s)
      (fun c2 hc2 d hd => hvalid c2 (List.mem_cons_of_mem c hc2) d hd) hinv
    rw [show constructAll isDir (c :: rest) s =
        constructAll isDir rest (traceInitState isDir c s) from rfl]
    rw [hrest, hstep]
    by_cases hc : some trace_file_handler_unique_name ∈ handlerNames s ∨ c.dir.isSome = true
    · simp only [hc, if_true, reduceIte]
      have : some trace_file_handler_unique_name ∈
          [some trace_console_handler_unique_name, some trace_file_handler_unique_name] := by
        simp
      simp [this, hc]
      rcases hc with hc | hc <;> simp [hc]
    · simp only [hc, if_false, reduceIte]
      have hnotmem : some trace_file_handler_unique_name ∉
          [some trace_console_handler_unique_name] := by
        simp [Ne.symm console_name_ne_file_name]
      push_neg at hc
      simp [hnotmem, hc.1, hc.2, Ne.symm console_name_ne_file_name]

/-- Handler names after the very first construction, from the clean
process state. -/
theorem traceInitState_names_first (isDir : String → Bool) (c : ConstructArgs)
    (hvalid : ∀ d, c.dir = some d → isDir d = true) :
    handlerNames (traceInitState isDir c initSysState) =
      if c.dir.isSome = true then
        [some trace_console_handler_unique_name, some trace_file_handler_unique_name]
      else [some trace_console_handler_unique_name] := by
  have hconsAbsent : some trace_console_handler_unique_name ∉
      handlerNames (setLevelNoPropagate c.level initSysState) := by
    simp [handlerNames, setLevelNoPropagate, initSysState]
  have hcons := enable_console_handler_absent _ hconsAbsent
  have hcnames : handlerNames (enable_console_handler
      (setLevelNoPropagate c.level initSysState)) =
      [some trace_console_handler_unique_name] := by
    rw [hcons]
    simp [handlerNames, setLevelNoPropagate, initSysState]
  have hfileAbsent : some trace_file_handler_unique_name ∉
      handlerNames (enable_console_handler (setLevelNoPropagate c.level initSysState)) := by
    rw [hcnames]
    simp [Ne.symm console_name_ne_file_name]
  cases hdir : c.dir with
  | some d =>
    have hd : isDir d = true := hvalid d hdir
    have hstep : traceInitState isDir c initSysState = bootstrap c.level true initSysState := by
      unfold traceInitState traceInit
      rw [hdir]
      simp [hd]
    rw [hstep]
    unfold bootstrap
    rw [handlerNames_redirectStreams, enable_file_handler_absent _ hfileAbsent, hcnames]
    simp
  | none =>
    have hstep : traceInitState isDir c initSysState = bootstrap c.level false initSysState := by
      unfold traceInitState traceInit
      rw [hdir]
    rw [hstep]
    unfold bootstrap
    rw [handlerNames_redirectStreams, enable_file_handler_no_dir, hcnames]
    simp

/-! ## Claim C1 — construction idempotence by sink name -/

/-- C1 (amended): for any number of `Trace` constructions against the
same underlying logger name, with any mix of valid log-directory
arguments, the logger ends with exactly one handler named
`<tracer-id>-ConsoleHandler`, and exactly one handler named
`<tracer-id>-FileHandler` when a log directory was supplied in at least
one construction (none otherwise); duplicate attachment attempts are
detected by handler name and silently skipped.  The handler-name set
after the Nth construction equals the set after the 1st whenever the
first construction already supplied a log directory, or no construction
did; the original claim that the two sets are always equal fails when
only a later construction supplies a log directory (see the
counterexample). -/
theorem trace_construction_idempotent_by_sink_name (isDir : String → Bool)
    (c0 : ConstructArgs) (rest : List ConstructArgs)
    (hvalid : ∀ c ∈ c0 :: rest, ∀ d, c.dir = some d → isDir d = true) :
    (handlerNames (constructAll isDir (c0 :: rest) initSysState) =
      if (c0 :: rest).any (fun c => c.dir.isSome) = true then
        [some trace_console_handler_unique_name, some trace_file_handler_unique_name]
      else [some trace_console_handler_unique_name])
    ∧ (handlerNames (constructAll isDir (c0 :: rest) initSysState)).count
        (some trace_console_handler_unique_name) = 1
    ∧ ((c0 :: rest).any (fun c => c.dir.isSome) = true →
        (handlerNames (constructAll isDir (c0 :: rest) initSysState)).count
          (some trace_file_handler_unique_name) = 1)
    ∧ ((c0 :: rest).any (fun c => c.dir.isSome) = false →
        some trace_file_handler_unique_name ∉
          handlerNames (constructAll isDir (c0 :: rest) initSysState))
    ∧ ((c0.dir.isSome = true ∨ (c0 :: rest).any (fun c => c.dir.isSome) = false) →
        handlerNames (constructAll isDir (c0 :: rest) initSysState) =
          handlerNames (traceInitState isDir c0 initSysState)) := by
  have hvalid0 : ∀ d, c0.dir = some d → isDir d = true :=
    fun d hd => hvalid c0 (List.mem_cons_self c0 rest) d hd
  have hfirst := traceInitState_names_first isDir c0 hvalid0
  have hinv : handlerNames (traceInitState isDir c0 initSysState) =
      [some trace_console_handler_unique_name] ∨
      handlerNames (traceInitState isDir c0 initSysState) =
      [some trace_console_handler_unique_name, some trace_file_handler_unique_name] := by
    rw [hfirst]
    by_cases h0 : c0.dir.isSome = true
    · right; simp [h0]
    · left; simp [h0]
  have hmain : handlerNames (constructAll isDir (c0 :: rest) initSysState) =
      if (c0 :: rest).any (fun c => c.dir.isSome) = true then
        [some trace_console_handler_unique_name, some trace_file_handler_unique_name]
      else [some trace_console_handler_unique_name] := by
    rw [show constructAll isDir (c0 :: rest) initSysState =
        constructAll isDir rest (traceInitState isDir c0 initSysState) from rfl]
    rw [constructAll_names_inv isDir rest _
      (fun c2 hc2 d hd => hvalid c2 (List.mem_cons_of_mem c0 hc2) d hd) hinv]
    rw [hfirst]
    by_cases h0 : c0.dir.isSome = true
    · simp [h0]
    · simp [h0, Ne.symm console_name_ne_file_name]
  refine ⟨hmain, ?_, ?_, ?_, ?_⟩
  · rw [hmain]
    by_cases hany : (c0 :: rest).any (fun c => c.dir.isSome) = true
    · rw [if_pos hany]; decide
    · rw [if_neg hany]; decide
  · intro hany
    rw [hmain, if_pos hany]; decide
  · intro hnone
    rw [hmain]
    have : (c0 :: rest).any (fun c => c.dir.isSome) ≠ true := by simp [hnone]
    rw [if_neg this]
    simp [Ne.symm console_name_ne_file_name]
  · intro hcase
    rw [hmain, hfirst]
    rcases hcase with h0 | hnone
    · have hany : (c0 :: rest).any (fun c => c.dir.isSome) = true := by
        simp [List.any_cons, h0]
      rw [if_pos hany, if_pos h0]
    · have h0 : c0.dir.isSome ≠ true := by
        intro hc
        have : (c0 :: rest).any (fun c => c.dir.isSome) = true := by
          simp [List.any_cons, hc]
        rw [this] at hnone; exact Bool.noConfusion hnone
      have : (c0 :: rest).any (fun c => c.dir.isSome) ≠ true := by simp [hnone]
      rw [if_neg this, if_neg h0]

/-- C1 witness: a single construction with a valid log directory. -/
theorem trace_construction_idempotent_by_sink_name_witness :
    handlerNames (constructAll (fun _ => true) [⟨LogLevel.info, some "."⟩] initSysState) =
      [some trace_console_handler_unique_name, some trace_file_handler_unique_name] := by
  have h := trace_construction_idempotent_by_sink_name (fun _ => true)
    ⟨LogLevel.info, some "."⟩ [] (by intro c hc d hd; rfl)
  have h1 := h.1
  simpa using h1

/-- C1 counterexample: constructed first without and then with a (valid)
log directory, the handler-name set after the 2nd construction differs
from the set after the 1st, refuting the claim that for every mix of
valid log-directory arguments the set after the Nth construction equals
the set after the 1st. -/
theorem trace_construction_name_set_counterexample :
    handlerNames (constructAll (fun _ => true)
        [⟨LogLevel.info, none⟩, ⟨LogLevel.info, some "."⟩] initSysState) ≠
      handlerNames (constructAll (fun _ => true) [⟨LogLevel.info, none⟩] initSysState) := by
  decide

/-! ## Claim C3 — enable_handler idempotence by sink name -/

/-- C3: `enable_handler` is idempotent by sink name: when any attached
handler carries the same name as the argument, the call leaves the
attached-handler set unchanged even for a distinct handler object; when
no attached handler carries that name, the argument is appended exactly
once with its severity threshold set to the current logger level. -/
theorem enable_handler_idempotent_by_name (s : SysState) (h : PyHandler) :
    ((∃ h0 ∈ s.logger.handlers, h0.name = h.name) →
      enable_handler (EnableArg.handler h) s = Except.ok s)
    ∧ ((∀ h0 ∈ s.logger.handlers, h0.name ≠ h.name) →
      enable_handler (EnableArg.handler h) s = Except.ok
        { s with logger := { s.logger with handlers :=
            s.logger.handlers ++ [{ h with level := s.logger.level }] } }) := by
  constructor
  · intro hex
    have hc : contains_handler s h.name = true := by
      rw [contains_handler_iff]
      obtain ⟨h0, hmem, hname⟩ := hex
      exact ⟨h0, hmem, hname.symm⟩
    simp [enable_handler, hc]
  · intro hnone
    have hc : contains_handler s h.name = false := by
      cases hcc : contains_handler s h.name with
      | false => rfl
      | true =>
        exfalso
        rw [contains_handler_iff] at hcc
        obtain ⟨h0, hmem, hname⟩ := hcc
        exact hnone h0 hmem hname.symm
    simp [enable_handler, hc]

/-- C3 witness: a logger already holding a handler named A: attaching a
distinct object also named A changes nothing; attaching a handler named
B appends it once, with its level forced to the logger level. -/
theorem enable_handler_idempotent_by_name_witness :
    (enable_handler (EnableArg.handler ⟨1, some "A", 99⟩)
      ⟨⟨10, false, [⟨0, some "A", 20⟩]⟩, true, true, 5⟩ =
      Except.ok ⟨⟨10, false, [⟨0, some "A", 20⟩]⟩, true, true, 5⟩)
    ∧ (enable_handler (EnableArg.handler ⟨2, some "B", 99⟩)
      ⟨⟨10, false, [⟨0, some "A", 20⟩]⟩, true, true, 5⟩ =
      Except.ok ⟨⟨10, false, [⟨0, some "A", 20⟩, ⟨2, some "B", 10⟩]⟩, true, true, 5⟩) := by
  constructor
  · exact (enable_handler_idempotent_by_name
      ⟨⟨10, false, [⟨0, some "A", 20⟩]⟩, true, true, 5⟩ ⟨1, some "A", 99⟩).1
      ⟨⟨0, some "A", 20⟩, by decide, by decide⟩
  · exact (enable_handler_idempotent_by_name
      ⟨⟨10, false, [⟨0, some "A", 20⟩]⟩, true, true, 5⟩ ⟨2, some "B", 99⟩).2
      (by decide)

/-! ## Claim C7 — configuration errors fail fast -/

/-- C7: constructing a `Trace` with a log directory that does not exist
raises a descriptive `ValueError` naming the directory, before the
logger or any sink is touched (the state is not part of the error
result), and `enable_handler` raises a descriptive `ValueError` when
given `None` or an object that is not a logging handler; neither failure
is deferred to first use. -/
theorem config_errors_fail_fast (isDir : String → Bool) (uuid : String)
    (lvl : LogLevel) (d : String) (su : Option String) (s : SysState) :
    (isDir d = false →
      traceInit isDir uuid lvl (some d) su s =
        Except.error ("Invalid directory name given for log file " ++ d))
    ∧ enable_handler EnableArg.noneArg s =
        Except.error "Given handler to enable is None"
    ∧ enable_handler EnableArg.notAHandler s =
        Except.error "Expected handler but given other class" := by
  refine ⟨?_, rfl, rfl⟩
  intro hd
  unfold traceInit
  simp [hd]

/-- C7 witness: a concrete bad directory and a concrete state. -/
theorem config_errors_fail_fast_witness :
    ((fun (_ : String) => false) "no-such-dir" = false →
      traceInit (fun _ => false) "u" LogLevel.info (some "no-such-dir") none initSysState =
        Except.error ("Invalid directory name given for log file " ++ "no-such-dir"))
    ∧ enable_handler EnableArg.noneArg initSysState =
        Except.error "Given handler to enable is None"
    ∧ enable_handler EnableArg.notAHandler initSysState =
        Except.error "Expected handler but given other class" :=
  config_errors_fail_fast (fun _ => false) "u" LogLevel.info "no-such-dir" none initSysState

/-! ## Claim C9 — LogLevel parsing is total and defaults to info -/

/-- C9: `LogLevel.new` never fails and defaults to `info`: `None`, the
empty string, and any string that is not exactly one of the five member
names map to `info` (lookup is case-sensitive); each exact member name
maps to its member, so parsing "critical" yields `critical`. -/
theorem loglevel_parse_defaults_to_info :
    LogLevel.new none = LogLevel.info
    ∧ LogLevel.new (some "") = LogLevel.info
    ∧ LogLevel.new (some "nonexistent") = LogLevel.info
    ∧ LogLevel.new (some "Debug") = LogLevel.info
    ∧ (∀ nm : String, nm ∉ ["debug", "info", "warn", "error", "critical"] →
        LogLevel.new (some nm) = LogLevel.info)
    ∧ LogLevel.new (some "debug") = LogLevel.debug
    ∧ LogLevel.new (some "info") = LogLevel.info
    ∧ LogLevel.new (some "warn") = LogLevel.warn
    ∧ LogLevel.new (some "error") = LogLevel.error
    ∧ LogLevel.new (some "critical") = LogLevel.critical := by
  refine ⟨rfl, by decide, by decide, by decide, ?_, by decide, by decide, by decide,
    by decide, by decide⟩
  intro nm hnm
  simp only [List.mem_cons, List.mem_singleton, not_or] at hnm
  obtain ⟨h1, h2, h3, h4, h5⟩ := hnm
  unfold LogLevel.new
  simp [h1, h2, h3, h4, h5]

/-- C9 witness: instantiating the universally quantified clause at a
concrete unrecognized name. -/
theorem loglevel_parse_defaults_to_info_witness :
    LogLevel.new (some "warning") = LogLevel.info :=
  loglevel_parse_defaults_to_info.2.2.2.2.1 "warning" (by decide)

/-! ## Claim C10 — get_handler_by_name returns the last handler on a miss -/

/-- On a name miss the loop returns the final value of the loop
variable: the last element, or the accumulator for an empty list. -/
theorem get_handler_by_name_loop_no_match (hs : List PyHandler)
    (acc : Option PyHandler) (nm : Option String)
    (h : ∀ x ∈ hs, x.name ≠ nm) :
    get_handler_by_name_loop hs acc nm = hs.getLast?.or acc := by
  induction hs generalizing acc with
  | nil => rfl
  | cons h0 rest ih =>
    have hne : h0.name ≠ nm := h h0 (List.mem_cons_self h0 rest)
    rw [show get_handler_by_name_loop (h0 :: rest) acc nm =
        if h0.name = nm then some h0
        else get_handler_by_name_loop rest (some h0) nm from rfl]
    rw [if_neg hne, ih (some h0) (fun x hx => h x (List.mem_cons_of_mem h0 hx))]
    cases rest with
    | nil => rfl
    | cons r1 rest2 => rw [List.getLast?_cons_cons]; rfl

/-- With a nonempty accumulator the loop never returns `none`. -/
theorem get_handler_by_name_loop_some_ne_none (hs : List PyHandler)
    (a : PyHandler) (nm : Option String) :
    get_handler_by_name_loop hs (some a) nm ≠ none := by
  induction hs generalizing a with
  | nil => simp [get_handler_by_name_loop]
  | cons h0 rest ih =>
    rw [show get_handler_by_name_loop (h0 :: rest) (some a) nm =
        if h0.name = nm then some h0
        else get_handler_by_name_loop rest (some h0) nm from rfl]
    by_cases hne : h0.name = nm
    · simp [hne]
    · rw [if_neg hne]; exact ih h0

/-- C10: when no attached handler matches the requested name,
`get_handler_by_name` returns the last handler of the logger rather than
`None`; it returns `None` exactly when the handler list is empty. -/
theorem get_handler_by_name_miss_returns_last (s : SysState) (nm : Option String) :
    (get_handler_by_name s nm = none ↔ s.logger.handlers = [])
    ∧ ((∀ x ∈ s.logger.handlers, x.name ≠ nm) →
        get_handler_by_name s nm = s.logger.handlers.getLast?) := by
  constructor
  · constructor
    · intro hnone
      cases hh : s.logger.handlers with
      | nil => rfl
      | cons h0 rest =>
        exfalso
        unfold get_handler_by_name at hnone
        rw [hh] at hnone
        rw [show get_handler_by_name_loop (h0 :: rest) none nm =
            if h0.name = nm then some h0
            else get_handler_by_name_loop rest (some h0) nm from rfl] at hnone
        by_cases hne : h0.name = nm
        · rw [if_pos hne] at hnone; exact Option.noConfusion hnone
        · rw [if_neg hne] at hnone
          exact get_handler_by_name_loop_some_ne_none rest h0 nm hnone
    · intro hh
      unfold get_handler_by_name
      rw [hh]
      rfl
  · intro hmiss
    unfold get_handler_by_name
    rw [get_handler_by_name_loop_no_match s.logger.handlers none nm hmiss]
    cases s.logger.handlers.getLast? with
    | none => rfl
    | some x => rfl

/-- C10 witness: two handlers, neither matching the requested name: the
second (last) one is returned. -/
theorem get_handler_by_name_miss_returns_last_witness :
    get_handler_by_name ⟨⟨10, false, [⟨0, some "A", 10⟩, ⟨1, some "B", 10⟩]⟩, true, true, 2⟩
      (some "zzz") = some ⟨1, some "B", 10⟩ := by
  have h := (get_handler_by_name_miss_returns_last
    ⟨⟨10, false, [⟨0, some "A", 10⟩, ⟨1, some "B", 10⟩]⟩, true, true, 2⟩ (some "zzz")).2
    (by decide)
  rw [h]
  rfl

/-! ## The Elastic connection cache and the document-store sink
(src/elastic/ESUtil.py, src/rltrace/elastic/TraceElasticConnectionFactory.py,
src/rltrace/elastic/ElasticHandler.py)

Connections are opaque handles; distinct `Elasticsearch` objects are
modelled as distinct numeric ids drawn from a counter.  The class-level
dictionary `ESUtil._es` mapping connection strings to open connections is
modelled as an explicit association list threaded through the calls. -/

structure ESCache where
  cache : List (String × Nat)
  nextConn : Nat
  deriving Repr, DecidableEq

/-- The connection string `"http://{host}:{port}"` built by
`ESUtil.get_connection` (ESUtil.py line 76). -/
def connection_str (hostname port_id : String) : String :=
  "http://" ++ hostname ++ ":" ++ port_id

/-- `ESUtil.get_connection` (ESUtil.py lines 65-82): when the class-level
dictionary has no entry for the connection string, a new `Elasticsearch`
connection is created and cached; otherwise the cached connection object
is returned as-is.  The user and password take part only in creating a
new connection. -/
def get_connection (hostname port_id _elastic_user _elastic_password : String)
    (c : ESCache) : Nat × ESCache :=
  let key := connection_str hostname port_id
  match List.lookup key c.cache with
  | some conn => (conn, c)
  | none =>
    (c.nextConn, ⟨c.cache ++ [(key, c.nextConn)], c.nextConn + 1⟩)

/-- `TraceElasticConnectionFactory`: stores host, port and credentials. -/
structure TraceElasticConnectionFactory where
  hostname : String
  port_id : String
  elastic_user : String
  elastic_password : String
  deriving Repr, DecidableEq

/-- `TraceElasticConnectionFactory.new_connection` (lines 19-27):
delegates to `ESUtil.get_connection` with the stored parameters. -/
def TraceElasticConnectionFactory.new_connection
    (f : TraceElasticConnectionFactory) (c : ESCache) : Nat × ESCache :=
  get_connection f.hostname f.port_id f.elastic_user f.elastic_password c

/-- `ElasticHandler._ELASTIC_HANDLER_UNIQUE_NAME`. -/
def elastic_handler_unique_name : String :=
  "Trace-73702c6afbb74892a5393278bd088bb4-ElasticDBHandler"

/-- The fields of an `ElasticHandler` (factory-based revision,
src/rltrace/elastic/ElasticHandler.py). -/
structure ElasticHandlerObj where
  factory : TraceElasticConnectionFactory
  es : Nat
  es_index : String
  handlerName : String
  deriving Repr, DecidableEq

/-- `ElasticHandler.__init__` (lines 37-51): obtain a connection from the
factory, remember the index name, take the fixed handler name. -/
def elasticHandlerInit (f : TraceElasticConnectionFactory) (idx : String)
    (c : ESCache) : ElasticHandlerObj × ESCache :=
  let r := f.new_connection c
  (⟨f, r.1, idx, elastic_handler_unique_name⟩, r.2)

/-- `ElasticHandler.reset_for_new_process` (lines 76-81): replace the
stored connection with `self._elastic_connection_factory.new_connection()`. -/
def reset_for_new_process (h : ElasticHandlerObj) (c : ESCache) :
    ElasticHandlerObj × ESCache :=
  let r := h.factory.new_connection c
  ({ h with es := r.1 }, r.2)

/-- Looking a key up in an association list extended on the right with
that key finds the new entry when the key was absent before. -/
theorem lookup_append_single_none {l : List (String × Nat)} {k : String}
    (h : List.lookup k l = none) (v : Nat) :
    List.lookup k (l ++ [(k, v)]) = some v := by
  induction l with
  | nil => simp [List.lookup]
  | cons p rest ih =>
    obtain ⟨pk, pv⟩ := p
    rw [List.cons_append]
    by_cases hk : k = pk
    · rw [hk] at h
      simp [List.lookup] at h
    · have hbeq : (k == pk) = false := by simp [hk]
      simp only [List.lookup, hbeq] at h ⊢
      exact ih h

/-! ## Claim C6 — reset_for_new_process and the memoized connection -/

/-- C6 (divergence witnessed): `reset_for_new_process` asks the factory
for a connection, but `ESUtil.get_connection` memoizes connections per
connection string in the class-level dictionary, which already holds the
connection created when the handler was constructed.  The call therefore
reinstalls exactly the connection handle the handler held before the
call — never a distinct fresh one — and leaves the cache unchanged.
This contradicts the claim that after the call the handle is a newly
created connection distinct from the old one. -/
theorem reset_for_new_process_returns_cached_connection
    (f : TraceElasticConnectionFactory) (idx : String) (c : ESCache) :
    (reset_for_new_process (elasticHandlerInit f idx c).1
        (elasticHandlerInit f idx c).2).1.es = (elasticHandlerInit f idx c).1.es
    ∧ (reset_for_new_process (elasticHandlerInit f idx c).1
        (elasticHandlerInit f idx c).2).2 = (elasticHandlerInit f idx c).2 := by
  unfold reset_for_new_process elasticHandlerInit TraceElasticConnectionFactory.new_connection
  unfold get_connection
  cases hl : List.lookup (connection_str f.hostname f.port_id) c.cache with
  | some conn => simp [hl]
  | none =>
    simp only [hl]
    have h2 := lookup_append_single_none (l := c.cache)
      (k := connection_str f.hostname f.port_id) hl c.nextConn
    simp [h2]

/-- C6 concrete evaluation: with an empty cache and the factory used by
the bootstrap, the connection after `reset_for_new_process` is the very
connection (id 0) installed at construction. -/
theorem reset_for_new_process_returns_cached_connection_concrete :
    (reset_for_new_process
      (elasticHandlerInit ⟨"localhost", "9200", "elastic", "changeme"⟩ "trace_index" ⟨[], 0⟩).1
      (elasticHandlerInit ⟨"localhost", "9200", "elastic", "changeme"⟩ "trace_index" ⟨[], 0⟩).2).1.es
      = 0 := by
  decide

/-! ## Claim C8 — non-created write acknowledgements are failures
(src/elastic/ESUtil.py lines 228-251, ElasticHandler.emit lines 61-74)

The store call `es.index(...)` is external; its acknowledgement is
modelled by the value of the `result` field of the response, `none` when
the field is absent.  `str(res)` inside the Python error message is
abbreviated away; the error strings otherwise follow the source.
RuntimeErrors are modelled as `Except.error` with the message. -/

/-- The message of the inner raise in `write_doc_to_index`. -/
def badAckMsg (idx_name : String) : String :=
  "Index [" ++ idx_name ++ "] bad elastic return status when adding document"

/-- The message after the outer `except` of `write_doc_to_index` wraps
the inner error. -/
def writeFailMsg (idx_name : String) : String :=
  "Elastic failed to document to index [" ++ idx_name ++
    "] with exception [" ++ badAckMsg idx_name ++ "]"

/-- The RuntimeError message raised by `ElasticHandler.emit` around a
failed write. -/
def emitFailMsg (idx_name : String) : String :=
  "Failed to write log to Elastic with exception [" ++ writeFailMsg idx_name ++ "]"

/-- `ESUtil.write_doc_to_index`: raise inside the `try` when the
acknowledgement result is not the string created; the outer `except`
wraps any such error once more.  A missing `result` field
(`res.get('result', None)`) also fails. -/
def write_doc_to_index (idx_name : String) (ack : Option String) :
    Except String Unit :=
  let inner : Except String Unit :=
    if ack = some "created" then Except.ok ()
    else Except.error (badAckMsg idx_name)
  match inner with
  | Except.ok () => Except.ok ()
  | Except.error e =>
    Except.error ("Elastic failed to document to index [" ++ idx_name ++
      "] with exception [" ++ e ++ "]")

/-- `ElasticHandler.emit`: format the record and write it; any exception
from the write is re-raised as a `RuntimeError`. -/
def elasticEmit (h : ElasticHandlerObj) (ack : Option String) :
    Except String Unit :=
  match write_doc_to_index h.es_index ack with
  | Except.ok () => Except.ok ()
  | Except.error e =>
    Except.error ("Failed to write log to Elastic with exception [" ++ e ++ "]")

/-- The logging dispatch path from `Logger.log` to `Handler.emit`:
`Logger.callHandlers` and `Handler.handle` run `emit` without catching
exceptions when the record passes the logger and handler thresholds, so
whatever `emit` raises reaches the caller of `log`. -/
def loggerDispatchElastic (loggerLevel handlerLevel levelno : Int)
    (h : ElasticHandlerObj) (ack : Option String) : Except String Unit :=
  if loggerLevel ≤ levelno ∧ handlerLevel ≤ levelno then elasticEmit h ack
  else Except.ok ()

/-- C8: whenever the acknowledgement result of the single-document write
is not the string created (a different string, or an absent field),
`write_doc_to_index` raises, the sink's `emit` turns that into a
RuntimeError, and the dispatch from `log` propagates it to the caller;
only the created acknowledgement is accepted silently. -/
theorem write_ack_failures_raise (idx : String) (h : ElasticHandlerObj)
    (ack : Option String) (lgLvl hLvl lvl : Int) :
    (ack ≠ some "created" →
      write_doc_to_index idx ack = Except.error (writeFailMsg idx))
    ∧ (ack ≠ some "created" →
      elasticEmit h ack = Except.error (emitFailMsg h.es_index))
    ∧ (lgLvl ≤ lvl ∧ hLvl ≤ lvl →
        loggerDispatchElastic lgLvl hLvl lvl h ack = elasticEmit h ack)
    ∧ write_doc_to_index idx (some "created") = Except.ok ()
    ∧ elasticEmit h (some "created") = Except.ok () := by
  refine ⟨?_, ?_, ?_, ?_, ?_⟩
  · intro hne
    simp [write_doc_to_index, writeFailMsg, hne]
  · intro hne
    simp [elasticEmit, write_doc_to_index, emitFailMsg, writeFailMsg, hne]
  · intro hpass
    simp [loggerDispatchElastic, hpass]
  · simp [write_doc_to_index]
  · simp [elasticEmit, write_doc_to_index]

/-- C8 witness: a noop acknowledgement raises all the way out of the
dispatch; a created acknowledgement is accepted. -/
theorem write_ack_failures_raise_witness :
    (write_doc_to_index "idx1" (some "noop") = Except.error (writeFailMsg "idx1"))
    ∧ (write_doc_to_index "idx1" (some "created") = Except.ok ()) := by
  have h := write_ack_failures_raise "idx1"
    ⟨⟨"localhost", "9200", "elastic", "changeme"⟩, 0, "idx1", elastic_handler_unique_name⟩
    (some "noop") 10 10 20
  exact ⟨h.1 (by decide), h.2.2.2.1⟩

/-! ## Python decimal rendering (str(int)) -/

/-- Decimal digits of `n`, most significant first, by repeated division;
the fuel argument only drives structural recursion and any value above
the digit count gives the same result. -/
def natDigitsAux : Nat → Nat → List Char → List Char
  | 0, _, acc => acc
  | fuel+1, n, acc =>
    let d := Char.ofNat (48 + n % 10)
    if n < 10 then d :: acc
    else natDigitsAux fuel (n / 10) (d :: acc)

/-- The decimal digit string of a natural number (Python `str` on a
non-negative int). -/
def pyNatDigits (n : Nat) : List Char := natDigitsAux (n + 1) n []

/-- Python `str(int)`: optional minus sign followed by decimal digits. -/
def pyIntStr (n : Int) : String :=
  if n < 0 then String.mk ('-' :: pyNatDigits (-n).toNat)
  else String.mk (pyNatDigits n.toNat)

/-! ## ElasticFormatter level translation
(src/elastic/ElasticFormatter.py lines 34-73) -/

/-- `ElasticFormatter.level_map.get(level_no, ...)`. -/
def level_map_get (n : Int) : Option String :=
  if n = 50 then some "CRITICAL"
  else if n = 40 then some "ERROR"
  else if n = 30 then some "WARNING"
  else if n = 20 then some "INFO"
  else if n = 10 then some "DEBUG"
  else if n = 0 then some "NOTSET"
  else none

/-- `ElasticFormatter._translate_level_no` with the default (non-None)
level map: the table value, or `str(level_no)` for unknown numbers. -/
def translate_level_no (n : Int) : String :=
  if n = 50 then "CRITICAL"
  else if n = 40 then "ERROR"
  else if n = 30 then "WARNING"
  else if n = 20 then "INFO"
  else if n = 10 then "DEBUG"
  else if n = 0 then "NOTSET"
  else pyIntStr n

/-! ## The default Elastic date formatter
(src/elastic/ESUtil.py lines 38-63)

`DefaultElasticDateFormatter.format` accepts a float (epoch seconds) or
a naive `datetime`.  A float is first converted with
`datetime.fromtimestamp`, which renders the instant in the HOST LOCAL
timezone; the result (or the naive datetime given directly) is then
tagged as UTC by `pytz.utc.localize` and rendered with
`strftime('%Y-%m-%dT%H:%M:%S.%f%z')`.

The embedding models the host timezone as an explicit
`offsetSeconds : Int` parameter (the UTC offset `fromtimestamp` applies
for this instant), and models the float at microsecond resolution (the
resolution `fromtimestamp` rounds to): `Created.flt t` is the instant
`t` microseconds after the Unix epoch.  The proleptic-Gregorian
conversion performed inside `fromtimestamp` is implemented with an
era decomposition and a year-by-year walk. -/

structure PyDateTime where
  year : Int
  month : Nat
  day : Nat
  hour : Nat
  minute : Nat
  second : Nat
  microsecond : Nat
  deriving Repr, DecidableEq

/-- The `dtm` argument of `DefaultElasticDateFormatter.format`. -/
inductive Created where
  | flt (microsSinceEpoch : Int)
  | dt (d : PyDateTime)
  deriving Repr, DecidableEq

/-- Days in the March-based year `yoe` of a 400-year era: 366 exactly
when the contained February belongs to a leap civil year (the leap rule
is 400-year periodic, so this is era independent). -/
def daysInYoe (yoe : Nat) : Nat :=
  365 + (if ((yoe + 1) % 4 = 0 ∧ (yoe + 1) % 100 ≠ 0) ∨ (yoe + 1) % 400 = 0 then 1 else 0)

/-- Days before the March-based year `y` of an era. -/
def sumDaysYoe : Nat → Nat
  | 0 => 0
  | y+1 => sumDaysYoe y + daysInYoe y

/-- Walk forward over whole March-based years until fewer days remain
than the current year holds. -/
def yearIter : Nat → Nat → Nat → Nat × Nat
  | 0, yoe, rem => (yoe, rem)
  | f+1, yoe, rem =>
    if rem < daysInYoe yoe then (yoe, rem)
    else yearIter f (yoe + 1) (rem - daysInYoe yoe)

/-- Proleptic-Gregorian calendar date of a day count (days since
1970-01-01, negative allowed): era decomposition into 146097-day eras
anchored at 0000-03-01, year walk within the era, then the standard
five-month-cycle date split. -/
def civilOfDays (days : Int) : Int × Nat × Nat :=
  let z := days + 719468
  let era := z / 146097
  let doe := (z % 146097).toNat
  let p := yearIter 400 0 doe
  let yoe := p.1
  let doy := p.2
  let mp := (5 * doy + 2) / 153
  let d := doy - (153 * mp + 2) / 5 + 1
  let m := if mp < 10 then mp + 3 else mp - 9
  (era * 400 + yoe + (if m ≤ 2 then 1 else 0), m, d)

/-- `datetime.fromtimestamp` at microsecond resolution under a host
timezone with UTC offset `offsetSeconds`. -/
def fromtimestampMicros (offsetSeconds tMicros : Int) : PyDateTime :=
  let total := tMicros + offsetSeconds * 1000000
  let us := (total % 1000000).toNat
  let secs := total / 1000000
  let sod := (secs % 86400).toNat
  let days := secs / 86400
  let c := civilOfDays days
  ⟨c.1, c.2.1, c.2.2, sod / 3600, sod % 3600 / 60, sod % 60, us⟩

/-- The inverse, specification-side conversion: day count of a civil
date (Hinnant days_from_civil, direct formula, no iteration). -/
def days_from_civil (y : Int) (m d : Nat) : Int :=
  let y2 := y - (if m ≤ 2 then 1 else 0)
  let era := y2 / 400
  let yoe := (y2 % 400).toNat
  let mp := (m + 9) % 12
  let doy := (153 * mp + 2) / 5 + d - 1
  let doe := 365 * yoe + yoe / 4 - yoe / 100 + doy
  era * 146097 + (doe : Int) - 719468

/-- The epoch instant (in microseconds) a calendar datetime denotes when
read as UTC. -/
def epochMicrosOfDateTime (dt : PyDateTime) : Int :=
  (days_from_civil dt.year dt.month dt.day * 86400
    + dt.hour * 3600 + dt.minute * 60 + dt.second) * 1000000 + dt.microsecond

/-- Zero-padded decimal of width `width` (wider numbers keep all their
digits, as in strftime). -/
def padNum (width n : Nat) : List Char :=
  let ds := pyNatDigits n
  List.replicate (width - ds.length) '0' ++ ds

/-- `strftime('%Y-%m-%dT%H:%M:%S.%f%z')` on a datetime localized to UTC
by `pytz.utc.localize`: calendar fields zero-padded (year to four
digits, microseconds to six) and the fixed UTC offset suffix. -/
def renderDateTime (d : PyDateTime) : String :=
  String.mk (padNum 4 d.year.toNat ++ '-' :: padNum 2 d.month ++ '-' :: padNum 2 d.day
    ++ 'T' :: padNum 2 d.hour ++ ':' :: padNum 2 d.minute ++ ':' :: padNum 2 d.second
    ++ '.' :: padNum 6 d.microsecond ++ ['+', '0', '0', '0', '0'])

/-- `DefaultElasticDateFormatter.format`: floats go through
`fromtimestamp` (host local time), naive datetimes are used as given;
either way the result is localized as UTC and rendered. -/
def defaultElasticDateFormat (offsetSeconds : Int) (dtm : Created) : String :=
  match dtm with
  | Created.flt t => renderDateTime (fromtimestampMicros offsetSeconds t)
  | Created.dt d => renderDateTime d

/-! ## JSON string escaping (json.dumps) and JSON parsing

`ElasticFormatter.format` escapes the message with
`json.dumps(record.msg)[1:-1]`.  `json.dumps` with its default
`ensure_ascii=True` escapes backslash and double quote, uses the
two-character escapes for backspace, tab, newline, form feed and
carriage return, leaves the printable ASCII range 0x20-0x7e as-is, and
writes every other character as `\uXXXX` (lowercase hex), using a
surrogate pair for code points above 0xFFFF.

The parser below implements the JSON string grammar (escape sequences,
`\uXXXX` with surrogate-pair combination, raw control characters
rejected) and a flat-object grammar covering JSON objects whose values
are strings — the shape of every document the formatter emits. -/

/-- Lowercase hexadecimal digit. -/
def hexDigitChar (n : Nat) : Char :=
  if n < 10 then Char.ofNat (48 + n) else Char.ofNat (87 + n)

/-- Four lowercase hex digits of `n < 0x10000`. -/
def toHex4 (n : Nat) : List Char :=
  [hexDigitChar (n / 4096 % 16), hexDigitChar (n / 256 % 16),
   hexDigitChar (n / 16 % 16), hexDigitChar (n % 16)]

/-- `json.dumps` escaping of one character (ensure_ascii=True). -/
def escChar (c : Char) : List Char :=
  if c = '\\' then ['\\', '\\']
  else if c = '"' then ['\\', '"']
  else if c.toNat = 8 then ['\\', 'b']
  else if c.toNat = 9 then ['\\', 't']
  else if c.toNat = 10 then ['\\', 'n']
  else if c.toNat = 12 then ['\\', 'f']
  else if c.toNat = 13 then ['\\', 'r']
  else if 32 ≤ c.toNat ∧ c.toNat ≤ 126 then [c]
  else if c.toNat < 65536 then '\\' :: 'u' :: toHex4 c.toNat
  else
    ('\\' :: 'u' :: toHex4 (55296 + (c.toNat - 65536) / 1024)) ++
      ('\\' :: 'u' :: toHex4 (56320 + (c.toNat - 65536) % 1024))

/-- `json.dumps(s)[1:-1]`: the escaped body without the enclosing
quotes. -/
def jsonEscape : List Char → List Char
  | [] => []
  | c :: rest => escChar c ++ jsonEscape rest

/-- Value of one hex digit (either case accepted, as in JSON). -/
def hexVal (c : Char) : Option Nat :=
  let n := c.toNat
  if 48 ≤ n ∧ n ≤ 57 then some (n - 48)
  else if 97 ≤ n ∧ n ≤ 102 then some (n - 87)
  else if 65 ≤ n ∧ n ≤ 70 then some (n - 55)
  else none

/-- Value of a 4-digit hex group. -/
def hex4Val (a b c d : Char) : Option Nat :=
  match hexVal a, hexVal b, hexVal c, hexVal d with
  | some x, some y, some z, some w => some (4096 * x + 256 * y + 16 * z + w)
  | _, _, _, _ => none

/-- The single-character JSON escapes. -/
def escMap (e : Char) : Option Char :=
  if e = '"' then some '"'
  else if e = '\\' then some '\\'
  else if e = '/' then some '/'
  else if e = 'b' then some (Char.ofNat 8)
  else if e = 'f' then some (Char.ofNat 12)
  else if e = 'n' then some (Char.ofNat 10)
  else if e = 'r' then some (Char.ofNat 13)
  else if e = 't' then some (Char.ofNat 9)
  else none

/-- Continuation of `\uXXXX` decoding once the leading group value `n`
is known: a high surrogate must be followed by a `\uXXXX` low surrogate
and the pair combines; a lone low surrogate is rejected; anything else
is the code point itself. -/
def unescapeUniValue (n : Nat) (rest3 : List Char) :
    Option (Option Char × List Char) :=
  if 55296 ≤ n ∧ n ≤ 56319 then
    match rest3 with
    | e1 :: e2 :: a2 :: b2 :: c3 :: d2 :: rest4 =>
      if e1 = '\\' ∧ e2 = 'u' then
        match hex4Val a2 b2 c3 d2 with
        | none => none
        | some m =>
          if 56320 ≤ m ∧ m ≤ 57343 then
            some (some (Char.ofNat (65536 + (n - 55296) * 1024 + (m - 56320))), rest4)
          else none
      else none
    | _ => none
  else if 56320 ≤ n ∧ n ≤ 57343 then none
  else some (some (Char.ofNat n), rest3)

/-- Decoding after `\u`: four hex digits, then `unescapeUniValue`. -/
def unescapeUni (rest2 : List Char) : Option (Option Char × List Char) :=
  match rest2 with
  | a :: b :: c2 :: d :: rest3 =>
    match hex4Val a b c2 d with
    | none => none
    | some n => unescapeUniValue n rest3
  | _ => none

/-- Decoding after a backslash: `\u` starts a hex escape, the other
escape characters map through `escMap`. -/
def unescapeBackslash (rest : List Char) : Option (Option Char × List Char) :=
  match rest with
  | [] => none
  | e :: rest2 =>
    if e = 'u' then unescapeUni rest2
    else
      match escMap e with
      | none => none
      | some c2 => some (some c2, rest2)

/-- One step of JSON string decoding on a nonempty input: the closing
quote (`(none, rest)`), one decoded character, or a syntax error (raw
control characters are rejected). -/
def unescapeCons (c : Char) (rest : List Char) : Option (Option Char × List Char) :=
  if c = '"' then some (none, rest)
  else if c = '\\' then unescapeBackslash rest
  else if c.toNat < 32 then none
  else some (some c, rest)

/-- One step of JSON string decoding. -/
def unescapeStep (l : List Char) : Option (Option Char × List Char) :=
  match l with
  | [] => none
  | c :: rest => unescapeCons c rest

/-- Decode a JSON string body by iterating `unescapeStep`; the fuel only
bounds the number of decoded characters, and the input length is always
enough fuel since every step consumes at least one input character. -/
def parseStringBodyF : Nat → List Char → Option (List Char × List Char)
  | 0, _ => none
  | f+1, l =>
    match unescapeStep l with
    | none => none
    | some (none, r) => some ([], r)
    | some (some ch, r) =>
      match parseStringBodyF f r with
      | none => none
      | some (s, t) => some (ch :: s, t)

/-- Parse the body of a JSON string up to and including its closing
quote; return the decoded characters and the remaining input. -/
def parseStringBody (l : List Char) : Option (List Char × List Char) :=
  parseStringBodyF l.length l

/-- Parse one `key":"value"` member starting just after the key's
opening quote; report whether a comma (more members) or a closing brace
(object end) followed. -/
def parseOneMember (r : List Char) :
    Option ((List Char × List Char) × Bool × List Char) :=
  match parseStringBody r with
  | none => none
  | some (key, r1) =>
    match r1 with
    | ':' :: '"' :: r2 =>
      match parseStringBody r2 with
      | none => none
      | some (val, r3) =>
        match r3 with
        | ',' :: r4 => some ((key, val), false, r4)
        | '}' :: r4 => some ((key, val), true, r4)
        | _ => none
    | _ => none

/-- Parse a comma-separated run of `"key":"value"` members terminated
by a closing brace, starting just after the opening brace (or after a
comma).  The fuel bounds the number of members. -/
def parseMembersF : Nat → List Char → Option (List (List Char × List Char) × List Char)
  | 0, _ => none
  | fuel+1, l =>
    match l with
    | '}' :: r => some ([], r)
    | '"' :: r =>
      match parseOneMember r with
      | none => none
      | some (kv, true, r4) => some ([kv], r4)
      | some (kv, false, r4) =>
        match parseMembersF fuel r4 with
        | none => none
        | some (ms, r5) => some (kv :: ms, r5)
    | _ => none

/-- Parse a whole JSON object whose values are strings; the entire input
must be consumed. -/
def parseJsonFlatObject (s : String) : Option (List (String × String)) :=
  match s.data with
  | '{' :: rest =>
    match parseMembersF (rest.length + 1) rest with
    | some (ms, []) => some (ms.map (fun p => (String.mk p.1, String.mk p.2)))
    | _ => none
  | _ => none

/-! ## The log record and ElasticFormatter.format
(src/elastic/ElasticFormatter.py lines 43-87, src/rltrace/Trace.py
lines 249-261) -/

/-- The fields of a `logging.LogRecord` that `ElasticFormatter.format`
and `Trace.log` touch.  `args` and the `session_uuid` attribute injected
through `extra=` are carried to make explicit that the formatter reads
neither: it reads `record.name`, `record.levelno`, `record.created` and
the raw, uninterpolated `record.msg`. -/
structure PyLogRecord where
  name : String
  levelno : Int
  created : Created
  msg : String
  args : List String
  extra_session_uuid : Option String
  deriving Repr, DecidableEq

/-- `ElasticFormatter.format`: the template
`_fmt` built in `__init__` expands to
`\x7b"session_uuid":"\x7b\x7d","level":"\x7b\x7d","timestamp":"\x7b\x7d","message":"\x7b\x7d"\x7d`
(after the double `str.format`), filled with `record.name`, the
translated level number, the formatted creation time, and
`json.dumps(record.msg)[1:-1]`. -/
def elasticFormat (offsetSeconds : Int) (r : PyLogRecord) : String :=
  String.mk ('{' :: '"' :: ("session_uuid".data ++ '"' :: ':' :: '"' ::
    (r.name.data ++ '"' :: ',' :: '"' :: ("level".data ++ '"' :: ':' :: '"' ::
      ((translate_level_no r.levelno).data ++ '"' :: ',' :: '"' ::
        ("timestamp".data ++ '"' :: ':' :: '"' ::
          ((defaultElasticDateFormat offsetSeconds r.created).data ++ '"' :: ',' :: '"' ::
            ("message".data ++ '"' :: ':' :: '"' ::
              (jsonEscape r.msg.data ++ '"' :: '}' :: [])))))))))

/-- `Trace.log` (Trace.py lines 249-261): the record handed to the
handlers carries the logger name (the fixed `Trace._TRACE_UNIQUE_NAME`)
as `record.name`, the chosen level, the raw format string
`'%s - <msg>'` as `record.msg` (interpolation happens only in
formatters that call `record.getMessage()`), the session uuid as the
single positional argument, and the session uuid again as the
`session_uuid` attribute from `extra=`.  With `level=None` the current
`_log_level` (the LogLevel ENUM value 0..4, not the native level) is
passed to `Logger.log`. -/
def trace_log_record (t : TraceObj) (msg : String) (level : Option Int)
    (created : Created) : PyLogRecord :=
  let log_level : Int :=
    match level with
    | none => (t.log_level.value : Int)
    | some l => l
  { name := trace_unique_name
    levelno := log_level
    created := created
    msg := "%s - " ++ msg
    args := [t.session_uuid]
    extra_session_uuid := some t.session_uuid }

/-! ## Round trip of the json.dumps escaping through the JSON parser -/

theorem hexVal_hexDigitChar : ∀ d < 16, hexVal (hexDigitChar d) = some d := by
  decide

theorem hex4Val_toHex4 (n : Nat) (h : n < 65536) :
    hex4Val (hexDigitChar (n / 4096 % 16)) (hexDigitChar (n / 256 % 16))
      (hexDigitChar (n / 16 % 16)) (hexDigitChar (n % 16)) = some n := by
  have h3 := hexVal_hexDigitChar (n / 4096 % 16) (Nat.mod_lt _ (by omega))
  have h2 := hexVal_hexDigitChar (n / 256 % 16) (Nat.mod_lt _ (by omega))
  have h1 := hexVal_hexDigitChar (n / 16 % 16) (Nat.mod_lt _ (by omega))
  have h0 := hexVal_hexDigitChar (n % 16) (Nat.mod_lt _ (by omega))
  simp only [hex4Val, h3, h2, h1, h0, Option.some.injEq]
  omega

/-- Valid Unicode scalar values avoid the surrogate range. -/
theorem char_valid_range (c : Char) :
    c.toNat < 55296 ∨ (57343 < c.toNat ∧ c.toNat < 1114112) := by
  have h := c.valid
  unfold UInt32.isValidChar Nat.isValidChar at h
  exact h

theorem us_quote (r : List Char) : unescapeStep ('"' :: r) = some (none, r) := rfl

theorem us_esc_simple (e c2 : Char) (r : List Char) (he : ¬e = 'u')
    (hm : escMap e = some c2) :
    unescapeStep ('\\' :: e :: r) = some (some c2, r) := by
  show unescapeCons '\\' (e :: r) = some (some c2, r)
  unfold unescapeCons
  rw [if_neg (by decide), if_pos rfl]
  show (if e = 'u' then unescapeUni r
    else match escMap e with
      | none => none
      | some c2 => some (some c2, r)) = some (some c2, r)
  rw [if_neg he, hm]

theorem us_plain (c : Char) (r : List Char) (h1 : ¬c = '"') (h2 : ¬c = '\\')
    (h3 : 32 ≤ c.toNat) :
    unescapeStep (c :: r) = some (some c, r) := by
  show unescapeCons c r = some (some c, r)
  unfold unescapeCons
  rw [if_neg h1, if_neg h2, if_neg (by omega)]

theorem unescapeBackslash_u (r : List Char) :
    unescapeBackslash ('u' :: r) = unescapeUni r := rfl

theorem unescapeUni_hex (a b c d : Char) (r : List Char) :
    unescapeUni (a :: b :: c :: d :: r) =
      match hex4Val a b c d with
      | none => none
      | some n => unescapeUniValue n r := rfl

theorem us_uni_single (n : Nat) (r : List Char) (hlt : n < 65536)
    (hs1 : ¬(55296 ≤ n ∧ n ≤ 56319)) (hs2 : ¬(56320 ≤ n ∧ n ≤ 57343)) :
    unescapeStep ('\\' :: 'u' :: (toHex4 n ++ r)) = some (some (Char.ofNat n), r) := by
  show unescapeCons '\\' ('u' :: (toHex4 n ++ r)) = some (some (Char.ofNat n), r)
  unfold unescapeCons
  rw [if_neg (by decide), if_pos rfl, unescapeBackslash_u]
  rw [show toHex4 n ++ r = hexDigitChar (n / 4096 % 16) :: hexDigitChar (n / 256 % 16) ::
      hexDigitChar (n / 16 % 16) :: hexDigitChar (n % 16) :: r from rfl]
  rw [unescapeUni_hex, hex4Val_toHex4 n hlt]
  show unescapeUniValue n r = some (some (Char.ofNat n), r)
  unfold unescapeUniValue
  rw [if_neg hs1, if_neg hs2]

theorem us_uni_pair (n m : Nat) (r : List Char)
    (hn : 55296 ≤ n ∧ n ≤ 56319) (hm : 56320 ≤ m ∧ m ≤ 57343) :
    unescapeStep ('\\' :: 'u' :: (toHex4 n ++ ('\\' :: 'u' :: (toHex4 m ++ r)))) =
      some (some (Char.ofNat (65536 + (n - 55296) * 1024 + (m - 56320))), r) := by
  show unescapeCons '\\' ('u' :: (toHex4 n ++ ('\\' :: 'u' :: (toHex4 m ++ r)))) = _
  unfold unescapeCons
  rw [if_neg (by decide), if_pos rfl, unescapeBackslash_u]
  rw [show toHex4 n ++ ('\\' :: 'u' :: (toHex4 m ++ r)) =
      hexDigitChar (n / 4096 % 16) :: hexDigitChar (n / 256 % 16) ::
      hexDigitChar (n / 16 % 16) :: hexDigitChar (n % 16) ::
      ('\\' :: 'u' :: (toHex4 m ++ r)) from rfl]
  rw [unescapeUni_hex, hex4Val_toHex4 n (by omega)]
  show unescapeUniValue n ('\\' :: 'u' :: (toHex4 m ++ r)) = _
  unfold unescapeUniValue
  rw [if_pos hn]
  rw [show ('\\' :: 'u' :: (toHex4 m ++ r)) = '\\' :: 'u' :: hexDigitChar (m / 4096 % 16) ::
      hexDigitChar (m / 256 % 16) :: hexDigitChar (m / 16 % 16) :: hexDigitChar (m % 16) :: r
      from rfl]
  show (if '\\' = '\\' ∧ 'u' = 'u' then
      match hex4Val (hexDigitChar (m / 4096 % 16)) (hexDigitChar (m / 256 % 16))
        (hexDigitChar (m / 16 % 16)) (hexDigitChar (m % 16)) with
      | none => none
      | some m2 =>
        if 56320 ≤ m2 ∧ m2 ≤ 57343 then
          some (some (Char.ofNat (65536 + (n - 55296) * 1024 + (m2 - 56320))), r)
        else none
    else none) = _
  rw [if_pos (by exact ⟨rfl, rfl⟩), hex4Val_toHex4 m (by omega)]
  show (if 56320 ≤ m ∧ m ≤ 57343 then
      some (some (Char.ofNat (65536 + (n - 55296) * 1024 + (m - 56320))), r)
    else none) = _
  rw [if_pos hm]

/-- One unfolding of the fueled string-body loop. -/
theorem parseStringBodyF_succ (f : Nat) (l : List Char) :
    parseStringBodyF (f + 1) l =
      match unescapeStep l with
      | none => none
      | some (none, r) => some ([], r)
      | some (some ch, r) =>
        match parseStringBodyF f r with
        | none => none
        | some (s, t) => some (ch :: s, t) := rfl


/-- Folding one decoding step that closed the string. -/
theorem parseStringBodyF_step_quote (f : Nat) (l r : List Char)
    (h : unescapeStep l = some (none, r)) :
    parseStringBodyF (f + 1) l = some ([], r) := by
  rw [parseStringBodyF_succ, h]

/-- Folding one decoding step that produced a character, given the
result of the remaining decode. -/
theorem parseStringBodyF_step_some (f : Nat) (l : List Char) (ch : Char)
    (r : List Char) (h : unescapeStep l = some (some ch, r)) (s t : List Char)
    (h2 : parseStringBodyF f r = some (s, t)) :
    parseStringBodyF (f + 1) l = some (ch :: s, t) := by
  rw [parseStringBodyF_succ, h]
  show (match parseStringBodyF f r with
    | none => none
    | some (s, t) => some (ch :: s, t)) = some (ch :: s, t)
  rw [h2]

/-- Decoding inverts the json.dumps escaping, character by character,
when the fuel covers the number of characters. -/
theorem parseStringBodyF_escape (s : List Char) :
    ∀ (f : Nat) (rest : List Char),
      parseStringBodyF (s.length + (f + 1)) (jsonEscape s ++ '"' :: rest) =
        some (s, rest) := by
  induction s with
  | nil =>
    intro f rest
    rw [show ([] : List Char).length + (f + 1) = f + 1 from by simp]
    rw [show jsonEscape [] ++ '"' :: rest = '"' :: rest from rfl]
    exact parseStringBodyF_step_quote f _ rest (us_quote rest)
  | cons c s ih =>
    intro f rest
    rw [show (c :: s).length + (f + 1) = (s.length + (f + 1)) + 1 from by
      simp [List.length_cons]; omega]
    rw [show jsonEscape (c :: s) ++ '"' :: rest =
        escChar c ++ (jsonEscape s ++ '"' :: rest) from by
      rw [show jsonEscape (c :: s) = escChar c ++ jsonEscape s from rfl, List.append_assoc]]
    by_cases h1 : c = '\\'
    · subst h1
      rw [show escChar '\\' ++ (jsonEscape s ++ '"' :: rest) =
          '\\' :: '\\' :: (jsonEscape s ++ '"' :: rest) from rfl]
      exact parseStringBodyF_step_some _ _ _ _
        (us_esc_simple '\\' '\\' _ (by decide) (by decide)) s rest (ih f rest)
    · by_cases h2 : c = '"'
      · subst h2
        rw [show escChar '"' ++ (jsonEscape s ++ '"' :: rest) =
            '\\' :: '"' :: (jsonEscape s ++ '"' :: rest) from rfl]
        exact parseStringBodyF_step_some _ _ _ _
          (us_esc_simple '"' '"' _ (by decide) (by decide)) s rest (ih f rest)
      · by_cases h3 : c.toNat = 8
        · have hc : c = Char.ofNat 8 := by rw [← Char.ofNat_toNat c, h3]
          subst hc
          rw [show escChar (Char.ofNat 8) ++ (jsonEscape s ++ '"' :: rest) =
              '\\' :: 'b' :: (jsonEscape s ++ '"' :: rest) from rfl]
          exact parseStringBodyF_step_some _ _ _ _
            (us_esc_simple 'b' (Char.ofNat 8) _ (by decide) (by decide)) s rest (ih f rest)
        · by_cases h4 : c.toNat = 9
          · have hc : c = Char.ofNat 9 := by rw [← Char.ofNat_toNat c, h4]
            subst hc
            rw [show escChar (Char.ofNat 9) ++ (jsonEscape s ++ '"' :: rest) =
                '\\' :: 't' :: (jsonEscape s ++ '"' :: rest) from rfl]
            exact parseStringBodyF_step_some _ _ _ _
              (us_esc_simple 't' (Char.ofNat 9) _ (by decide) (by decide)) s rest (ih f rest)
          · by_cases h5 : c.toNat = 10
            · have hc : c = Char.ofNat 10 := by rw [← Char.ofNat_toNat c, h5]
              subst hc
              rw [show escChar (Char.ofNat 10) ++ (jsonEscape s ++ '"' :: rest) =
                  '\\' :: 'n' :: (jsonEscape s ++ '"' :: rest) from rfl]
              exact parseStringBodyF_step_some _ _ _ _
                (us_esc_simple 'n' (Char.ofNat 10) _ (by decide) (by decide)) s rest (ih f rest)
            · by_cases h6 : c.toNat = 12
              · have hc : c = Char.ofNat 12 := by rw [← Char.ofNat_toNat c, h6]
                subst hc
                rw [show escChar (Char.ofNat 12) ++ (jsonEscape s ++ '"' :: rest) =
                    '\\' :: 'f' :: (jsonEscape s ++ '"' :: rest) from rfl]
                exact parseStringBodyF_step_some _ _ _ _
                  (us_esc_simple 'f' (Char.ofNat 12) _ (by decide) (by decide)) s rest (ih f rest)
              · by_cases h7 : c.toNat = 13
                · have hc : c = Char.ofNat 13 := by rw [← Char.ofNat_toNat c, h7]
                  subst hc
                  rw [show escChar (Char.ofNat 13) ++ (jsonEscape s ++ '"' :: rest) =
                      '\\' :: 'r' :: (jsonEscape s ++ '"' :: rest) from rfl]
                  exact parseStringBodyF_step_some _ _ _ _
                    (us_esc_simple 'r' (Char.ofNat 13) _ (by decide) (by decide)) s rest (ih f rest)
                · by_cases h8 : 32 ≤ c.toNat ∧ c.toNat ≤ 126
                  · have hesc : escChar c = [c] := by
                      unfold escChar
                      rw [if_neg h1, if_neg h2, if_neg h3, if_neg h4, if_neg h5,
                        if_neg h6, if_neg h7, if_pos h8]
                    rw [hesc]
                    rw [show [c] ++ (jsonEscape s ++ '"' :: rest) =
                        c :: (jsonEscape s ++ '"' :: rest) from rfl]
                    exact parseStringBodyF_step_some _ _ _ _
                      (us_plain c _ h2 h1 h8.1) s rest (ih f rest)
                  · by_cases h9 : c.toNat < 65536
                    · have hesc : escChar c = '\\' :: 'u' :: toHex4 c.toNat := by
                        unfold escChar
                        rw [if_neg h1, if_neg h2, if_neg h3, if_neg h4, if_neg h5,
                          if_neg h6, if_neg h7, if_neg h8, if_pos h9]
                      rw [hesc]
                      rw [show ('\\' :: 'u' :: toHex4 c.toNat) ++ (jsonEscape s ++ '"' :: rest) =
                          '\\' :: 'u' :: (toHex4 c.toNat ++ (jsonEscape s ++ '"' :: rest))
                          from by simp]
                      have hvr := char_valid_range c
                      have hus := us_uni_single c.toNat (jsonEscape s ++ '"' :: rest)
                        h9 (by omega) (by omega)
                      rw [Char.ofNat_toNat] at hus
                      exact parseStringBodyF_step_some _ _ _ _ hus s rest (ih f rest)
                    · have hvr := char_valid_range c
                      have hesc : escChar c =
                          ('\\' :: 'u' :: toHex4 (55296 + (c.toNat - 65536) / 1024)) ++
                            ('\\' :: 'u' :: toHex4 (56320 + (c.toNat - 65536) % 1024)) := by
                        unfold escChar
                        rw [if_neg h1, if_neg h2, if_neg h3, if_neg h4, if_neg h5,
                          if_neg h6, if_neg h7, if_neg h8, if_neg h9]
                      rw [hesc]
                      rw [show (('\\' :: 'u' :: toHex4 (55296 + (c.toNat - 65536) / 1024)) ++
                            ('\\' :: 'u' :: toHex4 (56320 + (c.toNat - 65536) % 1024))) ++
                            (jsonEscape s ++ '"' :: rest) =
                          '\\' :: 'u' :: (toHex4 (55296 + (c.toNat - 65536) / 1024) ++
                            ('\\' :: 'u' :: (toHex4 (56320 + (c.toNat - 65536) % 1024) ++
                              (jsonEscape s ++ '"' :: rest)))) from by simp]
                      have hdiv : (c.toNat - 65536) / 1024 ≤ 1023 := by omega
                      have hmod : (c.toNat - 65536) % 1024 ≤ 1023 :=
                        Nat.le_of_lt_succ (Nat.mod_lt _ (by omega))
                      have hus := us_uni_pair (55296 + (c.toNat - 65536) / 1024)
                        (56320 + (c.toNat - 65536) % 1024)
                        (jsonEscape s ++ '"' :: rest) (by omega) (by omega)
                      have harith : 65536 +
                          (55296 + (c.toNat - 65536) / 1024 - 55296) * 1024 +
                          (56320 + (c.toNat - 65536) % 1024 - 56320) = c.toNat := by
                        have hdm := Nat.div_add_mod (c.toNat - 65536) 1024
                        omega
                      rw [harith, Char.ofNat_toNat] at hus
                      exact parseStringBodyF_step_some _ _ _ _ hus s rest (ih f rest)

/-- More fuel never changes a successful decode. -/
theorem parseStringBodyF_mono : ∀ (f g : Nat) (l : List Char)
    (x : List Char × List Char), f ≤ g → parseStringBodyF f l = some x →
    parseStringBodyF g l = some x := by
  intro f
  induction f with
  | zero =>
    intro g l x _ h
    exact absurd h (by simp [parseStringBodyF])
  | succ f ih =>
    intro g l x hle h
    cases g with
    | zero => omega
    | succ g =>
      rw [parseStringBodyF_succ] at h ⊢
      cases hs : unescapeStep l with
      | none => rw [hs] at h; exact absurd h (by simp)
      | some p =>
        obtain ⟨och, r⟩ := p
        rw [hs] at h
        cases och with
        | none => exact h
        | some ch =>
          have h2 : (match parseStringBodyF f r with
            | none => none
            | some (s, t) => some (ch :: s, t)) = some x := h
          show (match parseStringBodyF g r with
            | none => none
            | some (s, t) => some (ch :: s, t)) = some x
          cases hr : parseStringBodyF f r with
          | none =>
            rw [hr] at h2
            exact absurd h2 (by simp)
          | some pr =>
            obtain ⟨s, t⟩ := pr
            rw [hr] at h2
            rw [ih g r (s, t) (by omega) hr]
            exact h2

/-- Every character escape is at least one character long. -/
theorem escChar_length_pos (c : Char) : 1 ≤ (escChar c).length := by
  unfold escChar
  split_ifs <;> simp [toHex4]

/-- The escaped text is at least as long as the original. -/
theorem jsonEscape_length (s : List Char) : s.length ≤ (jsonEscape s).length := by
  induction s with
  | nil => simp [jsonEscape]
  | cons c s ih =>
    rw [show jsonEscape (c :: s) = escChar c ++ jsonEscape s from rfl]
    simp only [List.length_cons, List.length_append]
    have := escChar_length_pos c
    omega

/-- Wrapper-level round trip: `parseStringBody` decodes the
json.dumps-escaped body back to the original characters. -/
theorem parseStringBody_escape (s rest : List Char) :
    parseStringBody (jsonEscape s ++ '"' :: rest) = some (s, rest) := by
  unfold parseStringBody
  apply parseStringBodyF_mono (s.length + (0 + 1)) _ _ _ _
    (parseStringBodyF_escape s 0 rest)
  have h1 := jsonEscape_length s
  simp only [List.length_append, List.length_cons]
  omega

/-- Characters that the escaping leaves alone and the decoder copies
verbatim. -/
def plainChar (c : Char) : Bool :=
  decide (¬c = '"' ∧ ¬c = '\\' ∧ 32 ≤ c.toNat ∧ c.toNat ≤ 126)

/-- Decoding a run of plain characters returns it verbatim (fueled). -/
theorem parseStringBodyF_plain (s : List Char) :
    ∀ (f : Nat) (rest : List Char), s.all plainChar = true →
      parseStringBodyF (s.length + (f + 1)) (s ++ '"' :: rest) = some (s, rest) := by
  induction s with
  | nil =>
    intro f rest _
    rw [show ([] : List Char).length + (f + 1) = f + 1 from by simp]
    exact parseStringBodyF_step_quote f _ rest (us_quote rest)
  | cons c s ih =>
    intro f rest hall
    rw [List.all_cons, Bool.and_eq_true] at hall
    have hc := of_decide_eq_true hall.1
    rw [show (c :: s).length + (f + 1) = (s.length + (f + 1)) + 1 from by
      simp [List.length_cons]; omega]
    rw [show (c :: s) ++ '"' :: rest = c :: (s ++ '"' :: rest) from rfl]
    exact parseStringBodyF_step_some _ _ _ _
      (us_plain c _ hc.1 hc.2.1 hc.2.2.1) s rest (ih f rest hall.2)

/-- Wrapper-level: plain text decodes to itself. -/
theorem parseStringBody_plain (s rest : List Char) (h : s.all plainChar = true) :
    parseStringBody (s ++ '"' :: rest) = some (s, rest) := by
  unfold parseStringBody
  apply parseStringBodyF_mono (s.length + (0 + 1)) _ _ _ _
    (parseStringBodyF_plain s 0 rest h)
  simp only [List.length_append, List.length_cons]
  omega

/-- Parsing one member whose key is plain text, whose encoded value
decodes to `v`, followed by a comma. -/
theorem parseOneMember_comma (k enc v tl : List Char)
    (hk : k.all plainChar = true)
    (henc : ∀ r, parseStringBody (enc ++ '"' :: r) = some (v, r)) :
    parseOneMember (k ++ '"' :: ':' :: '"' :: (enc ++ '"' :: ',' :: tl)) =
      some ((k, v), false, tl) := by
  unfold parseOneMember
  rw [parseStringBody_plain k _ hk]
  show (match parseStringBody (enc ++ '"' :: ',' :: tl) with
    | none => none
    | some (val, r3) =>
      match r3 with
      | ',' :: r4 => some ((k, val), false, r4)
      | '}' :: r4 => some ((k, val), true, r4)
      | _ => none) = some ((k, v), false, tl)
  rw [henc (',' :: tl)]
  rfl

/-- Parsing the final member, followed by the closing brace. -/
theorem parseOneMember_rbrace (k enc v tl : List Char)
    (hk : k.all plainChar = true)
    (henc : ∀ r, parseStringBody (enc ++ '"' :: r) = some (v, r)) :
    parseOneMember (k ++ '"' :: ':' :: '"' :: (enc ++ '"' :: '}' :: tl)) =
      some ((k, v), true, tl) := by
  unfold parseOneMember
  rw [parseStringBody_plain k _ hk]
  show (match parseStringBody (enc ++ '"' :: '}' :: tl) with
    | none => none
    | some (val, r3) =>
      match r3 with
      | ',' :: r4 => some ((k, val), false, r4)
      | '}' :: r4 => some ((k, val), true, r4)
      | _ => none) = some ((k, v), true, tl)
  rw [henc ('}' :: tl)]
  rfl

/-- Folding one member into the member-list loop (more members follow). -/
theorem parseMembersF_more (f : Nat) (r : List Char)
    (kv : List Char × List Char) (r4 : List Char)
    (h : parseOneMember r = some (kv, false, r4))
    (x : List (List Char × List Char) × List Char)
    (h2 : parseMembersF f r4 = some x) :
    parseMembersF (f + 1) ('"' :: r) = some (kv :: x.1, x.2) := by
  show (match parseOneMember r with
    | none => none
    | some (kv, true, r4) => some ([kv], r4)
    | some (kv, false, r4) =>
      match parseMembersF f r4 with
      | none => none
      | some (ms, r5) => some (kv :: ms, r5)) = some (kv :: x.1, x.2)
  rw [h]
  show (match parseMembersF f r4 with
    | none => none
    | some (ms, r5) => some (kv :: ms, r5)) = some (kv :: x.1, x.2)
  rw [h2]

/-- Folding the final member into the member-list loop. -/
theorem parseMembersF_last (f : Nat) (r : List Char)
    (kv : List Char × List Char) (r4 : List Char)
    (h : parseOneMember r = some (kv, true, r4)) :
    parseMembersF (f + 1) ('"' :: r) = some ([kv], r4) := by
  show (match parseOneMember r with
    | none => none
    | some (kv, true, r4) => some ([kv], r4)
    | some (kv, false, r4) =>
      match parseMembersF f r4 with
      | none => none
      | some (ms, r5) => some (kv :: ms, r5)) = some ([kv], r4)
  rw [h]

/-- Rebuilding a string from its characters gives the same string. -/
theorem string_mk_data (s : String) : String.mk s.data = s := rfl

theorem natDigitsAux_plain : ∀ (fuel n : Nat) (acc : List Char),
    acc.all plainChar = true → (natDigitsAux fuel n acc).all plainChar = true := by
  intro fuel
  induction fuel with
  | zero => intro n acc h; exact h
  | succ fuel ih =>
    intro n acc h
    have hd : plainChar (Char.ofNat (48 + n % 10)) = true := by
      have hlt : n % 10 < 10 := Nat.mod_lt _ (by omega)
      have : ∀ d < 10, plainChar (Char.ofNat (48 + d)) = true := by decide
      exact this (n % 10) hlt
    show (if n < 10 then Char.ofNat (48 + n % 10) :: acc
      else natDigitsAux fuel (n / 10) (Char.ofNat (48 + n % 10) :: acc)).all plainChar = true
    by_cases hn : n < 10
    · rw [if_pos hn]
      simp [List.all_cons, hd, h]
    · rw [if_neg hn]
      exact ih (n / 10) _ (by simp [List.all_cons, hd, h])

theorem pyNatDigits_plain (n : Nat) : (pyNatDigits n).all plainChar = true :=
  natDigitsAux_plain (n + 1) n [] rfl

theorem pyIntStr_plain (n : Int) : (pyIntStr n).data.all plainChar = true := by
  unfold pyIntStr
  by_cases hn : n < 0
  · rw [if_pos hn]
    show (('-' :: pyNatDigits (-n).toNat).all plainChar) = true
    simp [List.all_cons, pyNatDigits_plain]
    decide
  · rw [if_neg hn]
    exact pyNatDigits_plain n.toNat

theorem translate_level_no_plain (n : Int) :
    (translate_level_no n).data.all plainChar = true := by
  unfold translate_level_no
  split_ifs <;> first | decide | exact pyIntStr_plain n

theorem padNum_plain (w n : Nat) : (padNum w n).all plainChar = true := by
  unfold padNum
  rw [List.all_append]
  have h1 : (List.replicate (w - (pyNatDigits n).length) '0').all plainChar = true := by
    rw [List.all_eq_true]
    intro c hc
    rw [List.eq_of_mem_replicate hc]
    decide
  rw [h1, pyNatDigits_plain]
  rfl

theorem renderDateTime_plain (d : PyDateTime) :
    (renderDateTime d).data.all plainChar = true := by
  show (padNum 4 d.year.toNat ++ '-' :: padNum 2 d.month ++ '-' :: padNum 2 d.day
    ++ 'T' :: padNum 2 d.hour ++ ':' :: padNum 2 d.minute ++ ':' :: padNum 2 d.second
    ++ '.' :: padNum 6 d.microsecond ++ ['+', '0', '0', '0', '0']).all plainChar = true
  simp only [List.all_append, List.all_cons, Bool.and_eq_true, padNum_plain]
  refine ⟨⟨⟨⟨⟨⟨⟨trivial, by decide, trivial⟩, by decide, trivial⟩, by decide, trivial⟩,
    by decide, trivial⟩, by decide, trivial⟩, by decide, trivial⟩, by decide⟩

theorem defaultElasticDateFormat_plain (o : Int) (c : Created) :
    (defaultElasticDateFormat o c).data.all plainChar = true := by
  cases c with
  | flt t => exact renderDateTime_plain _
  | dt d => exact renderDateTime_plain _

/-- Unfolding the whole-object parse on a well-shaped document. -/
theorem parseJsonFlatObject_mk (X : List Char) (ms : List (List Char × List Char))
    (h : parseMembersF (('"' :: X).length + 1) ('"' :: X) = some (ms, [])) :
    parseJsonFlatObject (String.mk ('{' :: '"' :: X)) =
      some (ms.map (fun p => (String.mk p.1, String.mk p.2))) := by
  show (match parseMembersF (('"' :: X).length + 1) ('"' :: X) with
    | some (ms, []) => some (ms.map (fun p => (String.mk p.1, String.mk p.2)))
    | _ => none) = some (ms.map (fun p => (String.mk p.1, String.mk p.2)))
  rw [h]

/-- Parsing a four-member flat object whose keys are plain and whose
encoded values decode as given. -/
theorem parseMembersF_four (k1 e1 v1 k2 e2 v2 k3 e3 v3 k4 e4 v4 : List Char)
    (hk1 : k1.all plainChar = true) (hk2 : k2.all plainChar = true)
    (hk3 : k3.all plainChar = true) (hk4 : k4.all plainChar = true)
    (he1 : ∀ r, parseStringBody (e1 ++ '"' :: r) = some (v1, r))
    (he2 : ∀ r, parseStringBody (e2 ++ '"' :: r) = some (v2, r))
    (he3 : ∀ r, parseStringBody (e3 ++ '"' :: r) = some (v3, r))
    (he4 : ∀ r, parseStringBody (e4 ++ '"' :: r) = some (v4, r)) :
    parseMembersF
      (('"' :: (k1 ++ '"' :: ':' :: '"' :: (e1 ++ '"' :: ',' :: '"' ::
        (k2 ++ '"' :: ':' :: '"' :: (e2 ++ '"' :: ',' :: '"' ::
          (k3 ++ '"' :: ':' :: '"' :: (e3 ++ '"' :: ',' :: '"' ::
            (k4 ++ '"' :: ':' :: '"' :: (e4 ++ '"' :: '}' :: []))))))))).length + 1)
      ('"' :: (k1 ++ '"' :: ':' :: '"' :: (e1 ++ '"' :: ',' :: '"' ::
        (k2 ++ '"' :: ':' :: '"' :: (e2 ++ '"' :: ',' :: '"' ::
          (k3 ++ '"' :: ':' :: '"' :: (e3 ++ '"' :: ',' :: '"' ::
            (k4 ++ '"' :: ':' :: '"' :: (e4 ++ '"' :: '}' :: []))))))))) =
      some ([(k1, v1), (k2, v2), (k3, v3), (k4, v4)], []) := by
  obtain ⟨f0, hf⟩ : ∃ f0, ('"' :: (k1 ++ '"' :: ':' :: '"' :: (e1 ++ '"' :: ',' :: '"' ::
      (k2 ++ '"' :: ':' :: '"' :: (e2 ++ '"' :: ',' :: '"' ::
        (k3 ++ '"' :: ':' :: '"' :: (e3 ++ '"' :: ',' :: '"' ::
          (k4 ++ '"' :: ':' :: '"' :: (e4 ++ '"' :: '}' :: []))))))))).length + 1 =
      f0 + 4 := by
    refine ⟨('"' :: (k1 ++ '"' :: ':' :: '"' :: (e1 ++ '"' :: ',' :: '"' ::
      (k2 ++ '"' :: ':' :: '"' :: (e2 ++ '"' :: ',' :: '"' ::
        (k3 ++ '"' :: ':' :: '"' :: (e3 ++ '"' :: ',' :: '"' ::
          (k4 ++ '"' :: ':' :: '"' :: (e4 ++ '"' :: '}' :: []))))))))).length - 3, ?_⟩
    simp only [List.length_cons, List.length_append]
    omega
  rw [hf]
  have hm4 := parseMembersF_last f0 _ (k4, v4) []
    (parseOneMember_rbrace k4 e4 v4 [] hk4 he4)
  have hm3 := parseMembersF_more (f0 + 1) _ (k3, v3) _
    (parseOneMember_comma k3 e3 v3
      ('"' :: (k4 ++ '"' :: ':' :: '"' :: (e4 ++ '"' :: '}' :: []))) hk3 he3)
    ([(k4, v4)], []) hm4
  have hm2 := parseMembersF_more (f0 + 2) _ (k2, v2) _
    (parseOneMember_comma k2 e2 v2
      ('"' :: (k3 ++ '"' :: ':' :: '"' :: (e3 ++ '"' :: ',' :: '"' ::
        (k4 ++ '"' :: ':' :: '"' :: (e4 ++ '"' :: '}' :: []))))) hk2 he2)
    ([(k3, v3), (k4, v4)], []) hm3
  have hm1 := parseMembersF_more (f0 + 3) _ (k1, v1) _
    (parseOneMember_comma k1 e1 v1
      ('"' :: (k2 ++ '"' :: ':' :: '"' :: (e2 ++ '"' :: ',' :: '"' ::
        (k3 ++ '"' :: ':' :: '"' :: (e3 ++ '"' :: ',' :: '"' ::
          (k4 ++ '"' :: ':' :: '"' :: (e4 ++ '"' :: '}' :: []))))))) hk1 he1)
    ([(k2, v2), (k3, v3), (k4, v4)], []) hm2
  exact hm1

/-- Parsing a formatted document: shared helper giving the four parsed
fields of `elasticFormat` for any record whose name is plain text. -/
theorem elasticFormat_parsed (offset lvl : Int) (sess msg : String)
    (created : Created) (args : List String) (extra : Option String)
    (hsess : sess.data.all plainChar = true) :
    parseJsonFlatObject (elasticFormat offset ⟨sess, lvl, created, msg, args, extra⟩) =
      some [("session_uuid", sess), ("level", translate_level_no lvl),
        ("timestamp", defaultElasticDateFormat offset created),
        ("message", msg)] := by
  have hobj := parseJsonFlatObject_mk
    ("session_uuid".data ++ '"' :: ':' :: '"' :: (sess.data ++ '"' :: ',' :: '"' ::
      ("level".data ++ '"' :: ':' :: '"' :: ((translate_level_no lvl).data ++ '"' :: ',' :: '"' ::
        ("timestamp".data ++ '"' :: ':' :: '"' ::
          ((defaultElasticDateFormat offset created).data ++ '"' :: ',' :: '"' ::
            ("message".data ++ '"' :: ':' :: '"' ::
              (jsonEscape msg.data ++ '"' :: '}' :: []))))))))
    [("session_uuid".data, sess.data), ("level".data, (translate_level_no lvl).data),
      ("timestamp".data, (defaultElasticDateFormat offset created).data),
      ("message".data, msg.data)]
    (parseMembersF_four
      "session_uuid".data sess.data sess.data
      "level".data (translate_level_no lvl).data (translate_level_no lvl).data
      "timestamp".data (defaultElasticDateFormat offset created).data
        (defaultElasticDateFormat offset created).data
      "message".data (jsonEscape msg.data) msg.data
      (by decide) (by decide) (by decide) (by decide)
      (fun r => parseStringBody_plain sess.data r hsess)
      (fun r => parseStringBody_plain _ r (translate_level_no_plain lvl))
      (fun r => parseStringBody_plain _ r (defaultElasticDateFormat_plain offset created))
      (fun r => parseStringBody_escape msg.data r))
  rw [show elasticFormat offset ⟨sess, lvl, created, msg, args, extra⟩ =
      String.mk ('{' :: '"' :: ("session_uuid".data ++ '"' :: ':' :: '"' ::
        (sess.data ++ '"' :: ',' :: '"' ::
          ("level".data ++ '"' :: ':' :: '"' ::
            ((translate_level_no lvl).data ++ '"' :: ',' :: '"' ::
              ("timestamp".data ++ '"' :: ':' :: '"' ::
                ((defaultElasticDateFormat offset created).data ++ '"' :: ',' :: '"' ::
                  ("message".data ++ '"' :: ':' :: '"' ::
                    (jsonEscape msg.data ++ '"' :: '}' :: []))))))))) from rfl]
  rw [hobj]
  simp only [List.map_cons, List.map_nil, string_mk_data]

/-! ## Claim C4 — message round trip through format and JSON parse -/

/-- C4: for every level number and every message string — including
messages holding quotes, apostrophes, backslashes and control
characters — parsing the document returned by `ElasticFormatter.format`
as JSON succeeds and yields exactly the four fields in order, the
`message` field being byte-for-byte the original `record.msg`: one
escaping on the way out, one unescaping on the way back, no double
processing.  (The session field, being `record.name`, is taken free of
JSON-significant characters, which the formatter would not escape.) -/
theorem elastic_format_message_roundtrip (offset lvl : Int) (sess msg : String)
    (created : Created) (args : List String) (extra : Option String)
    (hsess : sess.data.all plainChar = true) :
    parseJsonFlatObject (elasticFormat offset ⟨sess, lvl, created, msg, args, extra⟩) =
      some [("session_uuid", sess), ("level", translate_level_no lvl),
        ("timestamp", defaultElasticDateFormat offset created),
        ("message", msg)] :=
  elasticFormat_parsed offset lvl sess msg created args extra hsess

/-- C4 witness: a message containing a double quote, a single quote, a
backslash and a newline round-trips byte-for-byte through format and
JSON parse at a concrete record. -/
theorem elastic_format_message_roundtrip_witness :
    parseJsonFlatObject (elasticFormat 0
        ⟨"S1", 10, Created.dt ⟨2000, 6, 20, 18, 37, 51, 67⟩,
          String.mk ['a', '"', Char.ofNat 39, '\\', Char.ofNat 10, 'b'], [], none⟩) =
      some [("session_uuid", "S1"), ("level", "DEBUG"),
        ("timestamp", "2000-06-20T18:37:51.000067+0000"),
        ("message", String.mk ['a', '"', Char.ofNat 39, '\\', Char.ofNat 10, 'b'])] := by
  have h := elastic_format_message_roundtrip 0 10 "S1"
    (String.mk ['a', '"', Char.ofNat 39, '\\', Char.ofNat 10, 'b'])
    (Created.dt ⟨2000, 6, 20, 18, 37, 51, 67⟩) [] none (by decide)
  rw [h]
  rfl

/-! ## Claim C2 — the session tag of documents written by the sink -/

/-- C2 (divergence witnessed): for every tracer, message, level and
creation time, the document the document-store sink writes for a record
emitted by `Trace.log` carries in its `session_uuid` field the fixed
logger name `Trace-73702c6afbb74892a5393278bd088bb4` — `record.name`,
which `ElasticFormatter.format` uses — and not the tracer's session id,
which sits unread in `record.args` and the `session_uuid` attribute.
(The `message` field also shows the raw `%s - ` template, since the
formatter reads `record.msg` without interpolating.)  The claim that the
field equals the session id therefore fails for every session id other
than the fixed logger name. -/
theorem trace_log_session_field_is_logger_name (t : TraceObj) (msg : String)
    (level : Option Int) (created : Created) (offset : Int) :
    parseJsonFlatObject (elasticFormat offset (trace_log_record t msg level created)) =
      some [("session_uuid", trace_unique_name),
        ("level", translate_level_no (trace_log_record t msg level created).levelno),
        ("timestamp", defaultElasticDateFormat offset created),
        ("message", "%s - " ++ msg)] :=
  elasticFormat_parsed offset (trace_log_record t msg level created).levelno
    trace_unique_name ("%s - " ++ msg) created [t.session_uuid]
    (some t.session_uuid) (by decide)

/-! ## Correctness of the calendar conversion -/

/-- The year walk lands on the unique year whose cumulative day span
covers the remaining days, provided the fuel covers the span. -/
theorem yearIter_spec : ∀ (f yoe rem : Nat),
    sumDaysYoe yoe + rem < sumDaysYoe (yoe + f + 1) →
    sumDaysYoe (yearIter f yoe rem).1 + (yearIter f yoe rem).2 = sumDaysYoe yoe + rem
    ∧ (yearIter f yoe rem).2 < daysInYoe (yearIter f yoe rem).1
    ∧ yoe ≤ (yearIter f yoe rem).1 ∧ (yearIter f yoe rem).1 ≤ yoe + f := by
  intro f
  induction f with
  | zero =>
    intro yoe rem h
    have hs : sumDaysYoe (yoe + 0 + 1) = sumDaysYoe yoe + daysInYoe yoe := rfl
    refine ⟨rfl, ?_, Nat.le_refl _, Nat.le_refl _⟩
    show rem < daysInYoe yoe
    omega
  | succ f ih =>
    intro yoe rem h
    rw [show yearIter (f + 1) yoe rem =
      (if rem < daysInYoe yoe then (yoe, rem)
       else yearIter f (yoe + 1) (rem - daysInYoe yoe)) from rfl]
    by_cases hlt : rem < daysInYoe yoe
    · rw [if_pos hlt]
      refine ⟨rfl, ?_, Nat.le_refl _, ?_⟩
      · show rem < daysInYoe yoe
        exact hlt
      · show yoe ≤ yoe + (f + 1)
        omega
    · rw [if_neg hlt]
      have hstep : sumDaysYoe (yoe + 1) = sumDaysYoe yoe + daysInYoe yoe := rfl
      have hcond : sumDaysYoe (yoe + 1) + (rem - daysInYoe yoe) <
          sumDaysYoe (yoe + 1 + f + 1) := by
        have : yoe + 1 + f + 1 = yoe + (f + 1) + 1 := by omega
        rw [this, hstep]
        omega
      have hr := ih (yoe + 1) (rem - daysInYoe yoe) hcond
      refine ⟨?_, hr.2.1, by omega, by omega⟩
      rw [hr.1, hstep]
      omega

set_option maxRecDepth 4000 in
/-- One whole era holds 146097 days. -/
theorem sumDaysYoe_400 : sumDaysYoe 400 = 146097 := by decide

/-- Within an era the cumulative day count agrees with the closed
Hinnant formula. -/
theorem sumDaysYoe_eq (y : Nat) (h : y ≤ 399) :
    sumDaysYoe y = 365 * y + y / 4 - y / 100 := by
  induction y with
  | zero => rfl
  | succ y ih =>
    have hy : y ≤ 399 := by omega
    have hstep : sumDaysYoe (y + 1) = sumDaysYoe y + daysInYoe y := rfl
    rw [hstep, ih hy]
    unfold daysInYoe
    split_ifs with hleap
    · omega
    · omega

set_option maxRecDepth 4000 in
set_option maxHeartbeats 2000000 in
/-- The five-month-cycle date split and its inverse, checked over every
day of a (long) March-based year. -/
theorem monthSplit_spec : ∀ doy < 366,
    (153 * (((if (5 * doy + 2) / 153 < 10 then (5 * doy + 2) / 153 + 3
        else (5 * doy + 2) / 153 - 9) + 9) % 12) + 2) / 5 +
      (doy - (153 * ((5 * doy + 2) / 153) + 2) / 5 + 1) - 1 = doy
    ∧ 1 ≤ doy - (153 * ((5 * doy + 2) / 153) + 2) / 5 + 1
    ∧ doy - (153 * ((5 * doy + 2) / 153) + 2) / 5 + 1 ≤ 31
    ∧ 1 ≤ (if (5 * doy + 2) / 153 < 10 then (5 * doy + 2) / 153 + 3
        else (5 * doy + 2) / 153 - 9)
    ∧ (if (5 * doy + 2) / 153 < 10 then (5 * doy + 2) / 153 + 3
        else (5 * doy + 2) / 153 - 9) ≤ 12
    ∧ ((if (5 * doy + 2) / 153 < 10 then (5 * doy + 2) / 153 + 3
        else (5 * doy + 2) / 153 - 9) + 9) % 12 = (5 * doy + 2) / 153 := by
  decide
/-- Every March-based year has at most 366 days. -/
theorem daysInYoe_le (yoe : Nat) : daysInYoe yoe ≤ 366 := by
  unfold daysInYoe; split_ifs <;> omega

/-- Day-count round trip: converting a day count to a civil date and
back with the closed Hinnant formula is the identity. -/
theorem days_from_civil_civilOfDays (days : Int) :
    days_from_civil (civilOfDays days).1 (civilOfDays days).2.1 (civilOfDays days).2.2
      = days := by
  obtain ⟨yoe, doy, hYI⟩ :
      ∃ yoe doy, yearIter 400 0 (((days + 719468) % 146097)).toNat = (yoe, doy) :=
    ⟨_, _, rfl⟩
  have hdoe : ((days + 719468) % 146097).toNat < 146097 := by
    have h1 : 0 ≤ (days + 719468) % 146097 := Int.emod_nonneg _ (by decide)
    have h2 : (days + 719468) % 146097 < 146097 := Int.emod_lt_of_pos _ (by decide)
    omega
  have h401 : sumDaysYoe (0 + 400 + 1) = 146462 := by
    have hgen : ∀ y, sumDaysYoe (y + 1) = sumDaysYoe y + daysInYoe y := fun _ => rfl
    have h0 : (0 : Nat) + 400 + 1 = 400 + 1 := rfl
    have hd : daysInYoe 400 = 365 := rfl
    rw [h0, hgen 400, hd, sumDaysYoe_400]
  have hfuel : sumDaysYoe 0 + ((days + 719468) % 146097).toNat
      < sumDaysYoe (0 + 400 + 1) := by
    have h0 : sumDaysYoe 0 = 0 := rfl
    omega
  have hspec := yearIter_spec 400 0 (((days + 719468) % 146097)).toNat hfuel
  rw [hYI] at hspec
  obtain ⟨hsum0, hlt0, -, hle0⟩ := hspec
  have hs0 : sumDaysYoe 0 = 0 := rfl
  have hsum : sumDaysYoe yoe + doy
      = sumDaysYoe 0 + ((days + 719468) % 146097).toNat := hsum0
  have hlt : doy < daysInYoe yoe := hlt0
  have hle400 : yoe ≤ 0 + 400 := hle0
  clear hsum0 hlt0 hle0
  have hy399 : yoe ≤ 399 := by
    by_contra hge
    have hy400 : yoe = 400 := by omega
    rw [hy400, sumDaysYoe_400] at hsum
    omega
  have hd366 : doy < 366 := lt_of_lt_of_le hlt (daysInYoe_le yoe)
  obtain ⟨hms1, hd1, hd31, hm1, hm12, hmp⟩ := monthSplit_spec doy hd366
  have hsum2 : sumDaysYoe yoe = 365 * yoe + yoe / 4 - yoe / 100 := sumDaysYoe_eq yoe hy399
  simp only [civilOfDays, days_from_civil, hYI]
  have h1 : ((days + 719468) / 146097 * 400 + (yoe : Int)) / 400
      = (days + 719468) / 146097 := by omega
  have h2 : (((days + 719468) / 146097 * 400 + (yoe : Int)) % 400).toNat = yoe := by
    omega
  by_cases hmplt : (5 * doy + 2) / 153 < 10
  · rw [if_pos hmplt] at hms1 hm1 hm12 hmp
    simp only [if_pos hmplt]
    have hnle : ¬ ((5 * doy + 2) / 153 + 3 ≤ 2) := by omega
    simp only [if_neg hnle, add_zero, sub_zero]
    rw [h1, h2, hms1]
    omega
  · rw [if_neg hmplt] at hms1 hm1 hm12 hmp
    simp only [if_neg hmplt]
    have hmple : (5 * doy + 2) / 153 ≤ 11 := by omega
    have hle : (5 * doy + 2) / 153 - 9 ≤ 2 := by omega
    simp only [if_pos hle, add_sub_cancel_right]
    rw [h1, h2, hms1]
    omega

/-- Under a zero host offset, `fromtimestamp` is inverted exactly by
reading the produced calendar datetime back as UTC. -/
theorem epochMicros_fromtimestamp (t : Int) :
    epochMicrosOfDateTime (fromtimestampMicros 0 t) = t := by
  simp only [fromtimestampMicros, epochMicrosOfDateTime, zero_mul, add_zero]
  rw [days_from_civil_civilOfDays]
  omega

/-! ## Claim C5 — the fixed wire format -/

/-- C5 (amended): the end-to-end vector — a record named `S1` at level
10 created at naive 2000-06-20T18:37:51.000067 formats to exactly
`\x7b"session_uuid":"S1","level":"DEBUG","timestamp":"2000-06-20T18:37:51.000067+0000","message":"<msg>"\x7d`
in that field order; the level table maps 50, 40, 30, 20, 10, 0 to
CRITICAL, ERROR, WARNING, INFO, DEBUG, NOTSET and every other number to
its decimal string; a naive calendar timestamp is rendered as given
(treated as UTC) regardless of the host timezone; and an epoch-seconds
number is rendered as the HOST-LOCAL calendar time of that instant with
a `+0000` suffix — reading the rendered calendar time back as UTC
recovers the instant exactly when the host UTC offset is zero, a
nonzero offset shifting every calendar field by that offset. -/
theorem elastic_wire_format_fixed (off : Int) (m : String) (a : List String)
    (e : Option String) (n t : Int) (hn : level_map_get n = none) :
    elasticFormat off ⟨"S1", 10, Created.dt ⟨2000, 6, 20, 18, 37, 51, 67⟩, m, a, e⟩
        = String.mk
            ("\x7b\"session_uuid\":\"S1\",\"level\":\"DEBUG\",\"timestamp\":\"2000-06-20T18:37:51.000067+0000\",\"message\":\"".data
              ++ (jsonEscape m.data ++ '"' :: '}' :: []))
    ∧ translate_level_no 50 = "CRITICAL" ∧ translate_level_no 40 = "ERROR"
    ∧ translate_level_no 30 = "WARNING" ∧ translate_level_no 20 = "INFO"
    ∧ translate_level_no 10 = "DEBUG" ∧ translate_level_no 0 = "NOTSET"
    ∧ translate_level_no n = pyIntStr n
    ∧ (∀ d, defaultElasticDateFormat off (Created.dt d) = renderDateTime d)
    ∧ epochMicrosOfDateTime (fromtimestampMicros 0 t) = t
    ∧ fromtimestampMicros off t = fromtimestampMicros 0 (t + off * 1000000) := by
  refine ⟨rfl, rfl, rfl, rfl, rfl, rfl, rfl, ?_, fun d => rfl,
    epochMicros_fromtimestamp t, ?_⟩
  · unfold translate_level_no
    unfold level_map_get at hn
    split_ifs at hn ⊢ <;> first | exact Option.noConfusion hn | rfl
  · simp only [fromtimestampMicros, zero_mul, add_zero]

/-- C5 witness: level number 25 is outside the table and renders as the
decimal string `25`. -/
theorem elastic_wire_format_fixed_witness :
    level_map_get 25 = none ∧ translate_level_no 25 = pyIntStr 25 :=
  ⟨by decide,
    (elastic_wire_format_fixed 3600 "Hi" [] none 25 0 (by decide)).2.2.2.2.2.2.2.1⟩

set_option maxRecDepth 8000 in
/-- C5 counterexample: under a host timezone one hour east of UTC, the
default date formatter renders the epoch instant 0 — whose UTC calendar
time is 1970-01-01T00:00:00 — as `1970-01-01T01:00:00.000000+0000`: the
host-local calendar time mislabeled as UTC, so an epoch-seconds number
is not rendered as the corresponding UTC calendar time; a zero offset
gives the UTC rendering. -/
theorem default_date_format_local_time_counterexample :
    defaultElasticDateFormat 3600 (Created.flt 0)
        = "1970-01-01T01:00:00.000000+0000"
    ∧ defaultElasticDateFormat 3600 (Created.flt 0)
        ≠ "1970-01-01T00:00:00.000000+0000"
    ∧ defaultElasticDateFormat 0 (Created.flt 0)
        = "1970-01-01T00:00:00.000000+0000" := by
  refine ⟨?_, ?_, ?_⟩ <;> decide
